import Mathlib

/-!
Verification development for the Motilal multi-user trading backend
(`motilal_trader.py`).  The Python source is shallowly embedded: pure
helpers become Lean functions, the in-process mutable maps (session
registry, capital cache, position-metadata cache, document store) become
association lists threaded explicitly, collaborator calls (broker RPC,
document store) become oracle parameters, and a Python exception raised
by a collaborator is an `Except.error`.  Python floats are modelled by
exact rationals (IEEE rounding, overflow to infinity and non-ASCII
digits are outside the model); Python dicts are modelled by association
lists with insert-overwrite semantics; the thread-per-target fanout with
a join-all barrier is modelled as a fold over the resolved target list,
each step performing exactly the work of one dispatched thread.
-/

/-! ## Basic character and string helpers -/

/-- Python whitespace characters recognised by `str.strip()` (ASCII part). -/
def pyIsSpace (c : Char) : Bool :=
  c ∈ [' ', '\t', '\n', '\r', '\x0b', '\x0c']

/-- ASCII decimal digit test, written as an explicit list so facts about
individual digits reduce by `decide`. -/
def isDigitCh (c : Char) : Bool :=
  c ∈ ['0', '1', '2', '3', '4', '5', '6', '7', '8', '9']

/-- Numeric value of an ASCII digit. -/
def digitVal : Char → Nat
  | '0' => 0 | '1' => 1 | '2' => 2 | '3' => 3 | '4' => 4
  | '5' => 5 | '6' => 6 | '7' => 7 | '8' => 8 | '9' => 9
  | _ => 0

/-- Value of a digit string read left to right. -/
def digitsToNat (l : List Char) : Nat :=
  l.foldl (fun a c => a * 10 + digitVal c) 0

/-- Python `str.strip()` on a character list: drop leading and trailing
whitespace. -/
def pyStrip (l : List Char) : List Char :=
  ((l.dropWhile pyIsSpace).reverse.dropWhile pyIsSpace).reverse

/-- Characters kept by `_safe`: alphanumeric, underscore or hyphen. -/
def safeKeep (c : Char) : Bool :=
  c.isAlpha || c.isDigit || c = '_' || c = '-'

/-- Embedding of `_safe` (motilal_trader.py lines 140-142):
`(s or "").strip().replace(" ", "_")` filtered to alphanumerics, `_`
and `-`. -/
def safeChars (l : List Char) : List Char :=
  ((pyStrip l).map (fun c => if c = ' ' then '_' else c)).filter safeKeep

/-- String form of `_safe`. -/
def safe (s : String) : String :=
  String.mk (safeChars s.data)

/-- Python `str.upper()` (ASCII model): uppercase every character. -/
def strUpper (s : String) : String :=
  String.mk (s.data.map Char.toUpper)

/-! ## Association lists with Python-dict lookup and insert -/

/-- Lookup in an association list (Python `dict.get`). -/
def alookup {α β : Type} [DecidableEq α] (k : α) : List (α × β) → Option β
  | [] => none
  | p :: rest => if p.1 = k then some p.2 else alookup k rest

/-- Remove every binding of a key. -/
def aerase {α β : Type} [DecidableEq α] (k : α) : List (α × β) → List (α × β)
  | [] => []
  | p :: rest => if p.1 = k then aerase k rest else p :: aerase k rest

/-- Python `dict` assignment `d[k] = v`: the new binding shadows any old
one. -/
def dictInsert {α β : Type} [DecidableEq α] (k : α) (v : β)
    (d : List (α × β)) : List (α × β) :=
  (k, v) :: aerase k d

/-! ## `_safe_int_token`: `int(float(str(x).strip()))`

`_safe_int_token` (motilal_trader.py lines 372-381) strips the token,
rejects the empty string, and otherwise computes `int(float(s))`,
converting any exception into a request-level validation error.  The
CPython `float` literal grammar is embedded below (sign, digit groups
with underscores between digits, optional fraction, optional exponent,
`inf`/`infinity`/`nan`); the value is kept exact, and `int()` truncates
it toward zero.  `int(inf)`/`int(nan)` raise in Python, so those forms
are rejected. -/

/-- Consume a run of digits that may have single underscores between
digits, accumulating the value and counting digits; stops (leaving the
rest, including a dangling underscore) at the first character that does
not continue the run. -/
def dgLoop (acc len : Nat) : List Char → Nat × Nat × List Char
  | [] => (acc, len, [])
  | c :: rest =>
    if isDigitCh c then dgLoop (acc * 10 + digitVal c) (len + 1) rest
    else if c = '_' then
      match rest with
      | d :: rest2 =>
        if isDigitCh d then dgLoop (acc * 10 + digitVal d) (len + 1) rest2
        else (acc, len, c :: rest)
      | [] => (acc, len, c :: rest)
    else (acc, len, c :: rest)

/-- A digit group must begin with a digit. -/
def parseDigitGroup (l : List Char) : Option (Nat × Nat × List Char) :=
  match l with
  | c :: rest =>
    if isDigitCh c then some (dgLoop (digitVal c) 1 rest) else none
  | [] => none

/-- Mantissa of a float literal: `D+ [. D*]` or `. D+`.  Returns all
mantissa digits read as one integer together with the number of digits
after the point. -/
def parseMantissa (l : List Char) : Option (Nat × Nat × List Char) :=
  match parseDigitGroup l with
  | some (ip, _, rest) =>
    match rest with
    | '.' :: rest2 =>
      match parseDigitGroup rest2 with
      | some (fp, flen, rest3) => some (ip * 10 ^ flen + fp, flen, rest3)
      | none => some (ip, 0, rest2)
    | _ => some (ip, 0, rest)
  | none =>
    match l with
    | '.' :: rest2 =>
      match parseDigitGroup rest2 with
      | some (fp, flen, rest3) => some (fp, flen, rest3)
      | none => none
    | _ => none

/-- Signed digit group that must exhaust the input. -/
def expDigits (l : List Char) (sgn : Int) : Option Int :=
  match parseDigitGroup l with
  | some (ev, _, rest) => if rest = [] then some (sgn * ev) else none
  | none => none

/-- Exponent tail after `e`/`E`: optional sign and a digit group that
must exhaust the input. -/
def parseExpTail (l : List Char) : Option Int :=
  match l with
  | c :: r =>
    if c = '+' then expDigits r 1
    else if c = '-' then expDigits r (-1)
    else expDigits l 1
  | [] => none

/-- Result of Python `float(s)` on an already stripped string. -/
inductive PyFloat : Type
  | finite (neg : Bool) (mant fracLen : Nat) (ex : Int)
  | infinite (neg : Bool)
  | nanv
deriving DecidableEq

/-- Recognition of the unsigned part of a float literal:
`inf`/`infinity`/`nan` (case-insensitively) or mantissa plus optional
exponent. -/
def pyFloatStep (neg : Bool) (l1 : List Char) : Option PyFloat :=
  let low := l1.map Char.toLower
  if low = "inf".data ∨ low = "infinity".data then some (.infinite neg)
  else if low = "nan".data then some .nanv
  else
    match parseMantissa l1 with
    | none => none
    | some (m, flen, rest) =>
      match rest with
      | [] => some (.finite neg m flen 0)
      | e :: rest2 =>
        if e = 'e' ∨ e = 'E' then
          match parseExpTail rest2 with
          | some ex => some (.finite neg m flen ex)
          | none => none
        else none

/-- CPython float-literal recognition on a stripped character list:
optional sign, then the unsigned part. -/
def pyFloatParse (l : List Char) : Option PyFloat :=
  match l with
  | c :: r =>
    if c = '+' then pyFloatStep false r
    else if c = '-' then pyFloatStep true r
    else pyFloatStep false l
  | [] => pyFloatStep false []

/-- Truncation toward zero of the exact value `m * 10 ^ (ex - flen)`
(`m : Nat`, so this is plain floor on the magnitude). -/
def truncScaled (m flen : Nat) (ex : Int) : Nat :=
  if (flen : Int) ≤ ex then m * 10 ^ (ex - flen).toNat
  else m / 10 ^ ((flen : Int) - ex).toNat

/-- Embedding of `_safe_int_token` (lines 372-381): `None`/empty strips
to rejection, otherwise `int(float(s))`; any exception (unparseable,
`inf`, `nan`) is a rejection (`HTTPException 400`), modelled as `none`. -/
def safeIntToken (x : String) : Option Int :=
  let s := pyStrip x.data
  if s = [] then none
  else
    match pyFloatParse s with
    | some (.finite neg m flen ex) =>
      let mag : Int := (truncScaled m flen ex : Int)
      some (if neg then -mag else mag)
    | some _ => none
    | none => none

/-! ## Symbol validation (`place_order`, lines 870-875) -/

/-- One step of Python `str.split("|")`, folded from the right. -/
def splitStep (c : Char) (acc : List (List Char)) : List (List Char) :=
  if c = '|' then [] :: acc else (c :: acc.headI) :: acc.tail

/-- Python `s.split("|")` on a character list. -/
def splitPipe (l : List Char) : List (List Char) :=
  l.foldr splitStep [[]]

/-- Embedding of the symbol validation in `place_order`: the tuple
unpacking `exchange, stock_symbol, symboltoken = symbol.split("|")`
(error `symbol must be 'EXCHANGE|SYMBOL|TOKEN'` unless the split has
exactly three fields) followed by `_safe_int_token` on the third
field. -/
def parseSymbolE (symbol : String) : Except String (String × String × Int) :=
  match splitPipe symbol.data with
  | [a, b, c] =>
    match safeIntToken (String.mk c) with
    | some tok => .ok (String.mk a, String.mk b, tok)
    | none => .error ("Invalid symboltoken: " ++ String.mk c)
  | _ => .error "symbol must be 'EXCHANGE|SYMBOL|TOKEN'"

/-- Modelled from the spec: the token shape the specification describes
for `place_order` symbols — an integer, optionally with a trailing `.0`
decimal form — and the integer it denotes.  Used only to compare the
specified shape with the shape the code actually accepts. -/
def specShape (l : List Char) : Option Nat :=
  let ds := l.takeWhile isDigitCh
  let rest := l.dropWhile isDigitCh
  if ds = [] then none
  else if rest = [] then some (digitsToNat ds)
  else if rest = ['.', '0'] then some (digitsToNat ds)
  else none

/-- Boolean form of the spec's token shape. -/
def specTokenOk (t : String) : Bool :=
  (specShape t.data).isSome

/-! ## Broker responses and order payloads -/

/-- The part of a broker response dict the engine inspects, plus the
locally fabricated error dicts `{"status": "ERROR", "message": ...}`. -/
structure Resp where
  status : String
  message : String
deriving DecidableEq

/-- The normalized Motilal order request built by
`place_order_for_client` (lines 917-933) and `close_one` (lines
1171-1187); `algoid` and `goodtilldate` are the constant `""`. -/
structure OrderPayload where
  clientcode : String
  exchange : String
  symboltoken : Int
  buyorsell : String
  ordertype : String
  producttype : String
  orderduration : String
  price : ℚ
  triggerprice : ℚ
  quantityinlot : Int
  disclosedquantity : Int
  amoorder : String
  tag : String
deriving DecidableEq

/-- Outcome of a broker call that either returns a response dict or
raises (`Except.error` carries `str(e)`). -/
def brokerOutcome (broker : OrderPayload → Except String Resp)
    (p : OrderPayload) : Resp :=
  match broker p with
  | .ok r => r
  | .error e => { status := "ERROR", message := e }

/-! ## Capital cache and `auto_qty` (lines 392-410) -/

/-- The two capital fields a stored client document may carry
(`capital`, falling back to `base_amount`); Python's falsy-`or` chain
`d.get("capital", 0) or d.get("base_amount", 0) or 0` picks the first
non-zero one.  A missing document is the all-zero document. -/
structure CapDoc where
  capital : ℚ
  baseAmount : ℚ
deriving DecidableEq

/-- The capital figure extracted from a stored document. -/
def capOfDoc (d : CapDoc) : ℚ :=
  if d.capital ≠ 0 then d.capital else d.baseAmount

/-- Embedding of `_get_client_capital` (lines 392-402): consult the
per-user cache, else read the stored document, extract the capital and
cache it.  `docs` is the Account Store oracle. -/
def getClientCapital (docs : String → CapDoc) (caps : List (String × ℚ))
    (cid : String) : ℚ × List (String × ℚ) :=
  match alookup cid caps with
  | some c => (c, caps)
  | none =>
    let cap := capOfDoc (docs cid)
    (cap, dictInsert cid cap caps)

/-- Embedding of the arithmetic of `auto_qty` (lines 404-410):
`max(int(math.floor(capital * 0.15 / price)), 1)`, with the
`ZeroDivisionError` on `price = 0` caught and degraded to 1.  Python
floats are modelled as exact rationals. -/
def autoQtyCore (capital price : ℚ) : Int :=
  if price = 0 then 1 else max ⌊capital * (15 / 100) / price⌋ 1

/-- `auto_qty` through the capital cache. -/
def autoQty (docs : String → CapDoc) (caps : List (String × ℚ))
    (cid : String) (price : ℚ) : Int × List (String × ℚ) :=
  let r := getClientCapital docs caps cid
  (autoQtyCore r.1 price, r.2)

/-! ## `place_order` fanout (lines 863-977) -/

/-- The request payload fields `place_order` reads.  `exchange = ""`
models an absent/falsy `payload.get("exchange")` (the `or` falls back to
the exchange parsed from the symbol). -/
structure PlaceOrderReq where
  symbol : String
  groupacc : Bool
  groups : List String
  clients : List String
  diffQty : Bool
  multiplierFlag : Bool
  qtySelection : String
  quantityinlot : Int
  perClientQty : List (String × Int)
  perGroupQty : List (String × Int)
  action : String
  ordertype : String
  producttype : String
  orderduration : String
  exchange : String
  price : ℚ
  triggerprice : ℚ
  disclosedquantity : Int
  amoorder : String

/-- A stored group document: member account ids (`clients`/`members`)
and the group multiplier. -/
structure GroupDoc where
  members : List String
  multiplier : Int

/-- The per-request fields shared by every dispatched order. -/
structure SharedFields where
  exchangeVal : String
  symboltoken : Int
  action : String
  ordertype : String
  producttype : String
  orderduration : String
  price : ℚ
  triggerprice : ℚ
  disclosedquantity : Int
  amoorder : String

/-- Shared fields assembled by `place_order` after symbol validation
(`exchange_val = payload.get("exchange") or exchange`). -/
def shOf (req : PlaceOrderReq) (exch : String) (tok : Int) : SharedFields :=
  { exchangeVal := if req.exchange ≠ "" then req.exchange else exch
    symboltoken := tok
    action := req.action
    ordertype := req.ordertype
    producttype := req.producttype
    orderduration := req.orderduration
    price := req.price
    triggerprice := req.triggerprice
    disclosedquantity := req.disclosedquantity
    amoorder := req.amoorder }

/-- A resolved fanout target: optional tag (the group name), account id,
resolved quantity. -/
abbrev Target := Option String × String × Int

/-- The key a target's outcome is recorded under:
`f"{tag}:{client_id}" if tag else client_id` (an empty-string tag is
falsy in Python). -/
def targetKey (t : Target) : String :=
  match t.1 with
  | some g => if g = "" then t.2.1 else g ++ ":" ++ t.2.1
  | none => t.2.1

/-- The order request one dispatched thread sends
(`place_order_for_client`, lines 917-933). -/
def mkOrderPayload (sh : SharedFields) (t : Target) : OrderPayload :=
  { clientcode := t.2.1
    exchange := strUpper sh.exchangeVal
    symboltoken := sh.symboltoken
    buyorsell := sh.action
    ordertype := sh.ordertype
    producttype := sh.producttype
    orderduration := sh.orderduration
    price := sh.price
    triggerprice := sh.triggerprice
    quantityinlot := t.2.2
    disclosedquantity := sh.disclosedquantity
    amoorder := sh.amoorder
    tag := match t.1 with | some g => g | none => "" }

/-- `_session_for_clientid` (lines 903-908): linear scan of the user's
sessions (display name, account id) for the account id. -/
def sessionFor (sessions : List (String × String)) (cid : String) :
    Option (String × String) :=
  sessions.find? (fun p => decide (p.2 = cid))

/-- What one dispatched thread records for its target
(`place_order_for_client`, lines 910-939): a local `Session not found`
error without touching the broker, or the broker response with a raised
exception converted to an error dict. -/
def targetOutcome (sessions : List (String × String))
    (broker : OrderPayload → Except String Resp) (sh : SharedFields)
    (t : Target) : Resp :=
  match sessionFor sessions t.2.1 with
  | none => { status := "ERROR", message := "Session not found" }
  | some _ => brokerOutcome broker (mkOrderPayload sh t)

/-- The broker invocations one thread performs (none when the session is
missing), keyed by the target key. -/
def targetCalls (sessions : List (String × String)) (sh : SharedFields)
    (t : Target) : List (String × OrderPayload) :=
  match sessionFor sessions t.2.1 with
  | none => []
  | some _ => [(targetKey t, mkOrderPayload sh t)]

/-- Join-all fanout over the resolved targets: every thread records its
outcome in the shared `responses` dict under its key, and the engine
joins every thread before returning, so the fold runs every target to
completion. -/
def dispatchMap (sessions : List (String × String))
    (broker : OrderPayload → Except String Resp) (sh : SharedFields)
    (init : List (String × Resp)) (targets : List Target) :
    List (String × Resp) :=
  targets.foldl
    (fun d t => dictInsert (targetKey t) (targetOutcome sessions broker sh t) d)
    init

/-- Every broker invocation the dispatched threads perform, in target
order. -/
def dispatchCallList (sessions : List (String × String)) (sh : SharedFields)
    (targets : List Target) : List (String × OrderPayload) :=
  (targets.map (targetCalls sessions sh)).flatten

/-- The aggregate of one fanout: the response map and the broker calls
made. -/
def dispatchAll (sessions : List (String × String))
    (broker : OrderPayload → Except String Resp) (sh : SharedFields)
    (init : List (String × Resp)) (targets : List Target) :
    List (String × Resp) × List (String × OrderPayload) :=
  (dispatchMap sessions broker sh init targets,
   dispatchCallList sessions sh targets)

/-- Quantity policy for an explicit client target (lines 962-969). -/
def clientQtyStep (req : PlaceOrderReq) (docs : String → CapDoc)
    (caps : List (String × ℚ)) (cid : String) : Int × List (String × ℚ) :=
  if req.qtySelection = "auto" then autoQty docs caps cid req.price
  else if req.diffQty then ((alookup cid req.perClientQty).getD 0, caps)
  else (req.quantityinlot, caps)

/-- Quantity policy for a group member (lines 950-959). -/
def groupQtyStep (req : PlaceOrderReq) (docs : String → CapDoc)
    (gname : String) (mult : Int) (caps : List (String × ℚ))
    (cid : String) : Int × List (String × ℚ) :=
  if req.qtySelection = "auto" then autoQty docs caps cid req.price
  else if req.diffQty then ((alookup gname req.perGroupQty).getD 0, caps)
  else if req.multiplierFlag then (req.quantityinlot * mult, caps)
  else (req.quantityinlot, caps)

/-- Target resolution (lines 941-970): group mode loads each named group
(a missing group records a group-level error and continues), otherwise
the explicit client list is used; quantities follow the request's
policy.  Returns (immediate group-error entries, targets in dispatch
order, updated capital cache). -/
def resolveTargets (req : PlaceOrderReq)
    (groupLoad : String → Option GroupDoc) (docs : String → CapDoc)
    (caps0 : List (String × ℚ)) :
    List (String × Resp) × List Target × List (String × ℚ) :=
  if req.groupacc then
    req.groups.foldl
      (fun acc gname =>
        match groupLoad (safe gname) with
        | none =>
          (dictInsert gname
            { status := "ERROR", message := "Group not found: " ++ gname }
            acc.1, acc.2.1, acc.2.2)
        | some g =>
          g.members.foldl
            (fun acc2 cid =>
              let r := groupQtyStep req docs gname g.multiplier acc2.2.2 cid
              (acc2.1, acc2.2.1 ++ [(some gname, cid, r.1)], r.2))
            acc)
      ([], [], caps0)
  else
    req.clients.foldl
      (fun acc cid =>
        let r := clientQtyStep req docs acc.2.2 cid
        (acc.1, acc.2.1 ++ [((none : Option String), cid, r.1)], r.2))
      ([], [], caps0)

/-- Embedding of the `place_order` endpoint (lines 863-977): symbol
validation (rejecting the whole request before any dispatch), target
resolution, concurrent dispatch of one unit per target, and the
aggregate `order_responses` map.  Returns the response map, the list of
broker calls made, and the updated capital cache. -/
def placeOrder (sessions : List (String × String))
    (broker : OrderPayload → Except String Resp)
    (groupLoad : String → Option GroupDoc) (docs : String → CapDoc)
    (caps0 : List (String × ℚ)) (req : PlaceOrderReq) :
    Except String
      (List (String × Resp) × List (String × OrderPayload) ×
        List (String × ℚ)) :=
  match parseSymbolE req.symbol with
  | .error m => .error m
  | .ok (exch, _stock, tok) =>
    let sh := shOf req exch tok
    let r := resolveTargets req groupLoad docs caps0
    let d := dispatchAll sessions broker sh r.1 r.2.1
    .ok (d.1, d.2, r.2.2)

/-! ## Position Metadata Cache (`get_positions`, lines 1022-1070) -/

/-- The position fields `get_positions` reads from a broker position
row. -/
structure PosRow where
  symbol : String
  exchange : String
  symboltoken : String
  productname : String
  buyquantity : Int
  sellquantity : Int
deriving DecidableEq

/-- The cached metadata value `{exchange, symboltoken, producttype}`. -/
structure PosMetaV where
  exchange : String
  symboltoken : String
  producttype : String
deriving DecidableEq

/-- Net quantity `buyquantity - sellquantity`. -/
def posNetQty (p : PosRow) : Int :=
  p.buyquantity - p.sellquantity

/-- Cache key `(user_id, client_display_name, symbol)`. -/
abbrev MetaKey := String × String × String

/-- Process one session's position rows: every row with non-zero net
quantity overwrites the cache entry for `(uid, name, symbol)` (line
1059-1060). -/
def processRows (uid nm : String) (rows : List PosRow)
    (m : List (MetaKey × PosMetaV)) : List (MetaKey × PosMetaV) :=
  rows.foldl
    (fun m p =>
      if posNetQty p ≠ 0 then
        dictInsert (uid, nm, p.symbol)
          { exchange := p.exchange, symboltoken := p.symboltoken,
            producttype := p.productname } m
      else m)
    m

/-- Embedding of the cache effect of `get_positions`: clear only this
user's entries (lines 1029-1031), then fold each session's fetch;
`none` models a non-`SUCCESS` status or a raised `GetPosition` (the
session is skipped). -/
def getPositionsMeta (meta : List (MetaKey × PosMetaV)) (uid : String)
    (fetches : List (String × Option (List PosRow))) :
    List (MetaKey × PosMetaV) :=
  let cleared := meta.filter (fun kv => decide (kv.1.1 ≠ uid))
  fetches.foldl
    (fun m f =>
      match f.2 with
      | none => m
      | some rows => processRows uid f.1 rows m)
    cleared

/-! ## Client documents, login, deletion (lines 413-456 and 633-670) -/

/-- The client-document fields `login_client` reads.  String fields
model the raw payload values (`""` is Python-falsy). -/
structure ClientDocL where
  userid : String
  clientId : String
  name : String
  displayName : String
  capital : ℚ
  baseAmount : ℚ
deriving DecidableEq

/-- `_pick` (lines 144-151) specialised to two candidates: the first
whose stripped string form is non-empty, else `""`. -/
def pick2 (a b : String) : String :=
  if String.mk (pyStrip a.data) ≠ "" then String.mk (pyStrip a.data)
  else if String.mk (pyStrip b.data) ≠ "" then String.mk (pyStrip b.data)
  else ""

/-- The display name chosen by `login_client` (line 420):
`(doc.get("name") or doc.get("display_name") or client_id or "").strip()`. -/
def loginName (doc : ClientDocL) (cid : String) : String :=
  String.mk (pyStrip
    (if doc.name ≠ "" then doc.name
     else if doc.displayName ≠ "" then doc.displayName
     else cid).data)

/-- Capital cached by `login_client` (line 425):
`doc.get("capital", 0) or doc.get("base_amount", 0) or 0`. -/
def loginCapital (doc : ClientDocL) : ℚ :=
  if doc.capital ≠ 0 then doc.capital else doc.baseAmount

/-- What happened inside `login_client`'s `try` block: the TOTP
derivation raised, the broker `login` call raised, or it returned a
response dict. -/
inductive LoginAttempt : Type
  | totpError (msg : String)
  | loginRaised (msg : String)
  | loginReturned (r : Resp)
deriving DecidableEq

/-- The attempt succeeded exactly when a dict with
`status == "SUCCESS"` came back (line 438). -/
def loginSuccess : LoginAttempt → Bool
  | .loginReturned r => decide (r.status = "SUCCESS")
  | _ => false

/-- A stored client document as the model tracks it: the fields merged
in by the last write plus the persisted `session_active` flag. -/
structure StoredClient where
  doc : ClientDocL
  sessionActive : Bool
deriving DecidableEq

/-- Per-user mutable state: the Account Store documents (keyed by the
sanitized client id), the Session Registry (display name to account
id), and the Capital Cache. -/
structure UserState where
  store : List (String × StoredClient)
  sessions : List (String × String)
  caps : List (String × ℚ)
deriving DecidableEq

/-- Embedding of `login_client` (lines 413-456) for one user: cache the
capital, attempt the login (every failure is caught), install the
session only on success, and persist `session_active` merged into the
stored document.  The function is total: no failure of the attempt
escapes to the caller.  (The Account Store write is modelled as
reliable; a store failure is also caught and logged by the code.) -/
def loginClient (st : UserState) (doc : ClientDocL) (att : LoginAttempt) :
    UserState :=
  let cid := pick2 doc.userid doc.clientId
  if cid = "" then st
  else
    let caps1 := dictInsert cid (loginCapital doc) st.caps
    let ok := loginSuccess att
    let sessions1 :=
      if ok then dictInsert (loginName doc cid) cid st.sessions
      else st.sessions
    let store1 :=
      dictInsert (safe cid) { doc := doc, sessionActive := ok } st.store
    { store := store1, sessions := sessions1, caps := caps1 }

/-- Embedding of one item of `clients_delete` (lines 633-670): skip an
empty id, drop every session whose account id matches, and delete the
stored document if present.  The Capital Cache is not touched by the
code. -/
def clientsDeleteOne (st : UserState) (cid : String) : UserState :=
  if cid = "" then st
  else
    let sessions1 := st.sessions.filter (fun p => decide (p.2 ≠ cid))
    let store1 :=
      match alookup (safe cid) st.store with
      | some _ => aerase (safe cid) st.store
      | none => st.store
    { store := store1, sessions := sessions1, caps := st.caps }

/-- `clients_delete` over its item list. -/
def clientsDelete (st : UserState) (items : List String) : UserState :=
  items.foldl clientsDeleteOne st

/-! ## Close lot-sizing (`close_position`, lines 1124-1204) -/

/-- Truncation toward zero, Python `int()` on a float. -/
def ratTrunc (q : ℚ) : Int :=
  if 0 ≤ q then ⌊q⌋ else ⌈q⌉

/-- One row of the `symbols` table read into `min_qty_map` (lines
1139-1149): `min_qty_map[str(sid)] = int(qty) if qty else 1`, skipping
falsy security ids.  A failed table load leaves the map empty. -/
def buildMinQtyMap (rows : List (String × Option Int)) :
    List (String × Int) :=
  rows.foldl
    (fun m r =>
      if r.1 ≠ "" then
        dictInsert r.1 (match r.2 with
          | some v => if v ≠ 0 then v else 1
          | none => 1) m
      else m)
    []

/-- Lot computation of `close_one` (lines 1168-1169):
`min_qty = min_qty_map.get(symboltoken, 1)` and
`lots = max(1, int(quantity // min_qty)) if min_qty > 0 else
int(quantity)`. -/
def closeLots (minMap : List (String × Int)) (token : String)
    (quantity : ℚ) : Int :=
  let m := (alookup token minMap).getD 1
  if m > 0 then max 1 ⌊quantity / (m : ℚ)⌋ else ratTrunc quantity

/-- One close-position item descriptor. -/
structure ClosePos where
  name : String
  symbol : String
  quantity : ℚ
  transactionType : String

/-- What one `close_one` thread does before the broker call: reject with
a `Missing data` message when metadata or session is absent, crash the
thread if `_safe_int_token` rejects the cached token (the exception is
not caught inside the thread), else dispatch a MARKET order sized in
lots. -/
inductive CloseResult : Type
  | missingData
  | tokenCrash
  | dispatch (o : OrderPayload)
deriving DecidableEq

/-- Embedding of `close_one` (lines 1153-1187) up to the broker call. -/
def closeOne (meta : List (MetaKey × PosMetaV))
    (sessions : List (String × String)) (minMap : List (String × Int))
    (uid : String) (pos : ClosePos) : CloseResult :=
  let mv := alookup (uid, pos.name, pos.symbol) meta
  let sess := if pos.name ≠ "" then alookup pos.name sessions else none
  match mv, sess with
  | some mv, some cid =>
    let token := mv.symboltoken
    let lots := closeLots minMap token pos.quantity
    match safeIntToken token with
    | none => .tokenCrash
    | some tk =>
      .dispatch
        { clientcode := cid
          exchange := mv.exchange
          symboltoken := tk
          buyorsell := strUpper pos.transactionType
          ordertype := "MARKET"
          producttype := mv.producttype
          orderduration := "DAY"
          price := 0
          triggerprice := 0
          quantityinlot := lots
          disclosedquantity := 0
          amoorder := "N"
          tag := "" }
  | _, _ => .missingData

/-! ## Copy-trade setup ids (`save_copytrading_setup`, lines 761-783) -/

/-- `setup_id = _safe(payload.get("setup_id") or name) + "_" +
datetime.utcnow().strftime("%Y%m%d%H%M%S")` (line 775): the timestamp
argument is the second-resolution UTC stamp at creation. -/
def mkSetupId (base ts : String) : String :=
  safe base ++ "_" ++ ts

/-! ## Global session table keyed by user (C10) -/

/-- One background login, as it affects the global
`mofsl_sessions` table: the raw platform-user id passed to
`login_client`, the chosen display name, the account id, and whether the
broker accepted. -/
structure LoginEv where
  rawUser : String
  name : String
  cid : String
  success : Bool

/-- The global `mofsl_sessions` table: user id to that user's session
dict. -/
abbrev SessionTable := List (String × List (String × String))

/-- Effect of one `login_client` run on the global table: only a
successful login touches it, installing under the sanitized user id
(`uid = _safe(user_id)`, line 418). -/
def applyLogin (tbl : SessionTable) (ev : LoginEv) : SessionTable :=
  if ev.success then
    let key := safe ev.rawUser
    let inner := (alookup key tbl).getD []
    dictInsert key (dictInsert ev.name ev.cid inner) tbl
  else tbl

/-- The table produced by a sequence of background logins from a fresh
process. -/
def applyLogins (evs : List LoginEv) : SessionTable :=
  evs.foldl applyLogin []

/-- `_sessions_for_user` as the trading endpoints use it (line 366-367,
via `require_user`): lookup under the raw stripped `X-User-Id` value. -/
def sessionsForUser (tbl : SessionTable) (uid : String) :
    List (String × String) :=
  (alookup uid tbl).getD []

/-! ## Concrete scenarios used by witnesses and counterexamples -/

/-- Group store with no groups. -/
def noGroups : String → Option GroupDoc := fun _ => none

/-- Account Store whose documents carry no capital fields. -/
def zeroDocs : String → CapDoc := fun _ => { capital := 0, baseAmount := 0 }

/-- Account Store whose documents carry capital 10000. -/
def richDocs : String → CapDoc := fun _ => { capital := 10000, baseAmount := 0 }

/-- A broker that accepts every order. -/
def okBroker : OrderPayload → Except String Resp :=
  fun _ => .ok { status := "SUCCESS", message := "ok" }

/-- Three-account place-order request (spec section 8 scenario). -/
def c1req : PlaceOrderReq :=
  { symbol := "NSE|RELIANCE|2885", groupacc := false, groups := []
    clients := ["C1", "C2", "C3"], diffQty := false, multiplierFlag := false
    qtySelection := "manual", quantityinlot := 5, perClientQty := []
    perGroupQty := [], action := "BUY", ordertype := "LIMIT"
    producttype := "NORMAL", orderduration := "DAY", exchange := ""
    price := 10, triggerprice := 0, disclosedquantity := 0, amoorder := "N" }

/-- Sessions for accounts C1 and C3 only; C2 has no live session. -/
def c1sessions : List (String × String) := [("acct one", "C1"), ("acct three", "C3")]

/-- A broker that accepts C1's order and raises on C3's. -/
def c1broker : OrderPayload → Except String Resp := fun p =>
  if p.clientcode = "C3" then .error "boom"
  else .ok { status := "SUCCESS", message := "ok" }

/-- The order payload dispatched for one of the three accounts. -/
def c1payload (cid : String) : OrderPayload :=
  { clientcode := cid, exchange := "NSE", symboltoken := 2885
    buyorsell := "BUY", ordertype := "LIMIT", producttype := "NORMAL"
    orderduration := "DAY", price := 10, triggerprice := 0
    quantityinlot := 5, disclosedquantity := 0, amoorder := "N", tag := "" }

/-- The aggregate response map of the three-account scenario. -/
def c1resps : List (String × Resp) :=
  [("C3", { status := "ERROR", message := "boom" }),
   ("C2", { status := "ERROR", message := "Session not found" }),
   ("C1", { status := "SUCCESS", message := "ok" })]

/-- The broker calls made in the three-account scenario. -/
def c1calls : List (String × OrderPayload) :=
  [("C1", c1payload "C1"), ("C3", c1payload "C3")]

/-- A request with an unparseable symbol string. -/
def c2badreq : PlaceOrderReq := { c1req with symbol := "bananas" }

/-- A request whose symbol carries the fractional token `3.7` — not of
the spec's integer-with-optional-`.0` shape. -/
def c2freq : PlaceOrderReq :=
  { c1req with symbol := "NSE|RELIANCE|3.7", clients := ["A"] }

/-- A live session for the fractional-token request's one client. -/
def c2fsessions : List (String × String) := [("acct f", "A")]

/-- The payload the fractional-token request dispatches: token truncated
to 3. -/
def c2fpayload : OrderPayload :=
  { clientcode := "A", exchange := "NSE", symboltoken := 3
    buyorsell := "BUY", ordertype := "LIMIT", producttype := "NORMAL"
    orderduration := "DAY", price := 10, triggerprice := 0
    quantityinlot := 5, disclosedquantity := 0, amoorder := "N", tag := "" }

/-- Differential-quantity request with no override for its one client:
the policy defaults the quantity to 0. -/
def c6req : PlaceOrderReq := { c1req with clients := ["A"], diffQty := true }

/-- A live session for the one client of the differential request. -/
def c6sessions : List (String × String) := [("acct a", "A")]

/-- The zero-quantity payload the differential request dispatches. -/
def c6payload : OrderPayload :=
  { clientcode := "A", exchange := "NSE", symboltoken := 2885
    buyorsell := "BUY", ordertype := "LIMIT", producttype := "NORMAL"
    orderduration := "DAY", price := 10, triggerprice := 0
    quantityinlot := 0, disclosedquantity := 0, amoorder := "N", tag := "" }

/-- A stored client document for account c1. -/
def c5doc : ClientDocL :=
  { userid := "c1", clientId := "", name := "Acct One", displayName := ""
    capital := 5000, baseAmount := 0 }

/-- User state holding account c1 with a stored document, two sessions
under different display names, a session of another account, and
capital-cache entries. -/
def c5st : UserState :=
  { store := [("c1", { doc := c5doc, sessionActive := true })]
    sessions := [("Acct One", "c1"), ("Alias", "c1"), ("Other", "c2")]
    caps := [("c1", 5000), ("c2", 100)] }

/-- A client document used for a failing login attempt. -/
def c9doc : ClientDocL :=
  { userid := "C9", clientId := "", name := "Nine", displayName := ""
    capital := 777, baseAmount := 0 }

/-- State before the failing login. -/
def c9st : UserState :=
  { store := [], sessions := [("Old", "Z")], caps := [] }

/-- A login attempt that dies deriving the TOTP. -/
def c9att : LoginAttempt := .totpError "bad totp key"

/-- Position metadata and session for a close-position item. -/
def c7meta : List (MetaKey × PosMetaV) :=
  [(("u1", "nm", "ABC"), { exchange := "NSE", symboltoken := "500325", producttype := "CNC" })]

/-- Session registry entry for the close-position item. -/
def c7sessions : List (String × String) := [("nm", "CID1")]

/-- A close-position item of quantity 60. -/
def c7pos : ClosePos :=
  { name := "nm", symbol := "ABC", quantity := 60, transactionType := "sell" }

/-- Min-lot table knowing token 500325 with minimum lot 25. -/
def c7map : List (String × Int) := [("500325", 25)]

/-- A successful background login under a raw user id that sanitization
alters. -/
def c10ev : LoginEv :=
  { rawUser := "john.doe", name := "Acct", cid := "C77", success := true }

/-- Shared order fields for the session-key scenarios. -/
def c10sh : SharedFields :=
  { exchangeVal := "NSE", symboltoken := 1, action := "BUY"
    ordertype := "MARKET", producttype := "NORMAL", orderduration := "DAY"
    price := 0, triggerprice := 0, disclosedquantity := 0, amoorder := "N" }

/-! ## Helper lemmas: association lists -/

theorem alookup_dictInsert_self {α β : Type} [DecidableEq α] (k : α) (v : β)
    (d : List (α × β)) : alookup k (dictInsert k v d) = some v := by
  simp [dictInsert, alookup]

theorem alookup_aerase_ne {α β : Type} [DecidableEq α] {k j : α}
    (d : List (α × β)) (h : j ≠ k) : alookup j (aerase k d) = alookup j d := by
  induction d with
  | nil => rfl
  | cons p rest ih =>
    by_cases hp : p.1 = k
    · have hj : p.1 ≠ j := by rw [hp]; exact fun he => h he.symm
      simp [aerase, hp, alookup, hj, Ne.symm h, ih]
    · simp only [aerase, if_neg hp, alookup]
      by_cases hq : p.1 = j
      · simp [hq]
      · simp [hq, ih]

theorem alookup_aerase_self {α β : Type} [DecidableEq α] (k : α)
    (d : List (α × β)) : alookup k (aerase k d) = none := by
  induction d with
  | nil => rfl
  | cons p rest ih =>
    by_cases hp : p.1 = k
    · simp [aerase, hp, ih]
    · simp [aerase, hp, alookup, ih]

theorem alookup_dictInsert_ne {α β : Type} [DecidableEq α] {k j : α} (v : β)
    (d : List (α × β)) (h : j ≠ k) :
    alookup j (dictInsert k v d) = alookup j d := by
  have hk : k ≠ j := fun he => h he.symm
  simp [dictInsert, alookup, hk, alookup_aerase_ne d h]

/-! ## Helper lemmas: characters and `_safe` -/

theorem pyIsSpace_cases {c : Char} (h : pyIsSpace c = true) :
    c = ' ' ∨ c = '\t' ∨ c = '\n' ∨ c = '\r' ∨ c = '\x0b' ∨ c = '\x0c' := by
  simpa [pyIsSpace] using h

theorem isDigitCh_cases {c : Char} (h : isDigitCh c = true) :
    c = '0' ∨ c = '1' ∨ c = '2' ∨ c = '3' ∨ c = '4' ∨ c = '5' ∨ c = '6' ∨
      c = '7' ∨ c = '8' ∨ c = '9' := by
  simpa [isDigitCh] using h

theorem safeKeep_not_space {c : Char} (h : safeKeep c = true) :
    pyIsSpace c = false := by
  cases hsp : pyIsSpace c with
  | false => rfl
  | true =>
    exfalso
    rcases pyIsSpace_cases hsp with rfl | rfl | rfl | rfl | rfl | rfl <;>
      exact absurd h (by decide)

theorem safeKeep_ne_space {c : Char} (h : safeKeep c = true) : c ≠ ' ' := by
  intro he; subst he; exact absurd h (by decide)

theorem digit_not_space {c : Char} (h : isDigitCh c = true) :
    pyIsSpace c = false := by
  rcases isDigitCh_cases h with rfl|rfl|rfl|rfl|rfl|rfl|rfl|rfl|rfl|rfl <;> rfl

theorem digit_toLower {c : Char} (h : isDigitCh c = true) : c.toLower = c := by
  rcases isDigitCh_cases h with rfl|rfl|rfl|rfl|rfl|rfl|rfl|rfl|rfl|rfl <;> rfl

theorem digit_ne_of {c d : Char} (h : isDigitCh c = true)
    (hd : isDigitCh d = false) : c ≠ d := by
  intro he; subst he; rw [h] at hd; cases hd

theorem dropWhile_false_of_all {α : Type} {p : α → Bool} {l : List α}
    (h : ∀ c ∈ l, p c = false) : l.dropWhile p = l := by
  cases l with
  | nil => rfl
  | cons c t => simp [List.dropWhile_cons, h c (by simp)]

theorem pyStrip_eq_self {l : List Char} (h : ∀ c ∈ l, pyIsSpace c = false) :
    pyStrip l = l := by
  unfold pyStrip
  rw [dropWhile_false_of_all h,
    dropWhile_false_of_all (fun c hc => h c (List.mem_reverse.mp hc)),
    List.reverse_reverse]

theorem map_underscore_id {l : List Char} (h : ∀ c ∈ l, c ≠ ' ') :
    l.map (fun c => if c = ' ' then '_' else c) = l := by
  induction l with
  | nil => rfl
  | cons c t ih =>
    simp only [List.map_cons, if_neg (h c (by simp))]
    rw [ih (fun c hc => h c (by simp [hc]))]

theorem safeChars_allKeep {l : List Char} :
    ∀ c ∈ safeChars l, safeKeep c = true := by
  intro c hc
  exact List.of_mem_filter hc

theorem safeChars_fix {l : List Char} (h : ∀ c ∈ l, safeKeep c = true) :
    safeChars l = l := by
  unfold safeChars
  rw [pyStrip_eq_self (fun c hc => safeKeep_not_space (h c hc)),
    map_underscore_id (fun c hc => safeKeep_ne_space (h c hc)),
    List.filter_eq_self.mpr h]

theorem safe_idem (s : String) : safe (safe s) = safe s := by
  unfold safe
  exact congrArg String.mk (safeChars_fix (fun c hc => safeChars_allKeep c hc))

theorem safe_not_in_range {u : String} (h : safe u ≠ u) (r : String) :
    safe r ≠ u := by
  intro hr
  apply h
  calc safe u = safe (safe r) := by rw [hr]
    _ = safe r := safe_idem r
    _ = u := hr

/-! ## Helper lemmas: the float-literal grammar on digit strings -/

theorem dgLoop_stop (acc len : Nat) (c : Char) (rest : List Char)
    (hc : isDigitCh c = false) (hu : c ≠ '_') :
    dgLoop acc len (c :: rest) = (acc, len, c :: rest) := by
  rw [dgLoop.eq_def]
  simp [hc, hu]

theorem dgLoop_digit (acc len : Nat) (c : Char) (rest : List Char)
    (hc : isDigitCh c = true) :
    dgLoop acc len (c :: rest) = dgLoop (acc * 10 + digitVal c) (len + 1) rest := by
  rw [dgLoop.eq_def]
  simp [hc]

theorem dgLoop_digits_append (ds : List Char)
    (hds : ∀ c ∈ ds, isDigitCh c = true) (r : List Char)
    (hr : r = [] ∨ ∃ c rest, r = c :: rest ∧ isDigitCh c = false ∧ c ≠ '_')
    (acc len : Nat) :
    dgLoop acc len (ds ++ r) =
      (ds.foldl (fun a c => a * 10 + digitVal c) acc, len + ds.length, r) := by
  induction ds generalizing acc len with
  | nil =>
    simp only [List.nil_append, List.foldl_nil, List.length_nil, Nat.add_zero]
    rcases hr with rfl | ⟨c, rest, rfl, hc, hu⟩
    · rfl
    · exact dgLoop_stop acc len c rest hc hu
  | cons d ds ih =>
    have hd := hds d (by simp)
    simp only [List.cons_append]
    rw [dgLoop_digit acc len d (ds ++ r) hd,
      ih (fun c hc => hds c (by simp [hc])) (acc * 10 + digitVal d) (len + 1)]
    simp only [List.foldl_cons, List.length_cons, Prod.mk.injEq, true_and,
      and_true]
    omega

theorem parseDigitGroup_digits (d : Char) (ds : List Char)
    (hd : isDigitCh d = true) (hds : ∀ c ∈ ds, isDigitCh c = true)
    (r : List Char)
    (hr : r = [] ∨ ∃ c rest, r = c :: rest ∧ isDigitCh c = false ∧ c ≠ '_') :
    parseDigitGroup ((d :: ds) ++ r) =
      some (digitsToNat (d :: ds), (d :: ds).length, r) := by
  simp only [List.cons_append, parseDigitGroup, hd, if_true]
  rw [dgLoop_digits_append ds hds r hr (digitVal d) 1]
  simp only [digitsToNat, List.foldl_cons, List.length_cons, Nat.zero_mul,
    Nat.zero_add, Option.some.injEq, Prod.mk.injEq, true_and, and_true]
  omega

theorem parseMantissa_digits (d : Char) (ds : List Char)
    (hd : isDigitCh d = true) (hds : ∀ c ∈ ds, isDigitCh c = true) :
    parseMantissa (d :: ds) = some (digitsToNat (d :: ds), 0, []) := by
  have h := parseDigitGroup_digits d ds hd hds [] (Or.inl rfl)
  rw [List.append_nil] at h
  simp [parseMantissa, h]

theorem parseMantissa_dotzero (d : Char) (ds : List Char)
    (hd : isDigitCh d = true) (hds : ∀ c ∈ ds, isDigitCh c = true) :
    parseMantissa ((d :: ds) ++ ['.', '0']) =
      some (digitsToNat (d :: ds) * 10, 1, []) := by
  have h := parseDigitGroup_digits d ds hd hds ['.', '0']
    (Or.inr ⟨'.', ['0'], rfl, by decide, by decide⟩)
  have h0 : parseDigitGroup (['0'] ++ ([] : List Char)) =
      some (digitsToNat ['0'], 1, []) :=
    parseDigitGroup_digits '0' [] (by decide) (by simp) [] (Or.inl rfl)
  rw [List.append_nil] at h0
  rw [parseMantissa.eq_def, h]
  simp [h0, digitsToNat]
  decide

theorem pyFloatStep_digit_head {d : Char} {tail : List Char}
    (hd : isDigitCh d = true) :
    pyFloatStep false (d :: tail) =
      (match parseMantissa (d :: tail) with
       | none => none
       | some (m, flen, rest) =>
         match rest with
         | [] => some (.finite false m flen 0)
         | e :: rest2 =>
           if e = 'e' ∨ e = 'E' then
             match parseExpTail rest2 with
             | some ex => some (.finite false m flen ex)
             | none => none
           else none) := by
  have hlow : (d :: tail).map Char.toLower = d :: tail.map Char.toLower := by
    simp [digit_toLower hd]
  have hinf : ¬((d :: tail).map Char.toLower = "inf".data ∨
      (d :: tail).map Char.toLower = "infinity".data) := by
    rw [hlow]
    rintro (he | he) <;>
    · have := (List.cons.injEq _ _ _ _).mp he
      exact absurd this.1 (digit_ne_of hd (by decide))
  have hnan : ¬(d :: tail).map Char.toLower = "nan".data := by
    rw [hlow]
    intro he
    have := (List.cons.injEq _ _ _ _).mp he
    exact absurd this.1 (digit_ne_of hd (by decide))
  simp only [pyFloatStep, if_neg hinf, if_neg hnan]

theorem pyFloatParse_digit_head {d : Char} {tail : List Char}
    (hd : isDigitCh d = true) :
    pyFloatParse (d :: tail) = pyFloatStep false (d :: tail) := by
  simp [pyFloatParse, digit_ne_of hd (show isDigitCh '+' = false by decide),
    digit_ne_of hd (show isDigitCh '-' = false by decide)]

theorem pyFloatParse_digits (d : Char) (ds : List Char)
    (hd : isDigitCh d = true) (hds : ∀ c ∈ ds, isDigitCh c = true) :
    pyFloatParse (d :: ds) = some (.finite false (digitsToNat (d :: ds)) 0 0) := by
  rw [pyFloatParse_digit_head hd, pyFloatStep_digit_head hd,
    parseMantissa_digits d ds hd hds]

theorem pyFloatParse_dotzero (d : Char) (ds : List Char)
    (hd : isDigitCh d = true) (hds : ∀ c ∈ ds, isDigitCh c = true) :
    pyFloatParse ((d :: ds) ++ ['.', '0']) =
      some (.finite false (digitsToNat (d :: ds) * 10) 1 0) := by
  have he : (d :: ds) ++ ['.', '0'] = d :: (ds ++ ['.', '0']) := rfl
  rw [he, pyFloatParse_digit_head hd, pyFloatStep_digit_head hd, ← he,
    parseMantissa_dotzero d ds hd hds]

theorem safeIntToken_of_digits {s : String} {d : Char} {ds : List Char}
    (hsd : s.data = d :: ds) (hd : isDigitCh d = true)
    (hds : ∀ c ∈ ds, isDigitCh c = true) :
    safeIntToken s = some ((digitsToNat (d :: ds) : Nat) : Int) := by
  have hall : ∀ c ∈ d :: ds, pyIsSpace c = false := by
    intro c hc
    rcases List.mem_cons.mp hc with rfl | hc
    · exact digit_not_space hd
    · exact digit_not_space (hds c hc)
  unfold safeIntToken
  rw [hsd, pyStrip_eq_self hall]
  rw [if_neg (List.cons_ne_nil d ds)]
  rw [pyFloatParse_digits d ds hd hds]
  simp [truncScaled]

theorem safeIntToken_of_dotzero {s : String} {d : Char} {ds : List Char}
    (hsd : s.data = (d :: ds) ++ ['.', '0']) (hd : isDigitCh d = true)
    (hds : ∀ c ∈ ds, isDigitCh c = true) :
    safeIntToken s = some ((digitsToNat (d :: ds) : Nat) : Int) := by
  have hall : ∀ c ∈ (d :: ds) ++ ['.', '0'], pyIsSpace c = false := by
    intro c hc
    rcases List.mem_append.mp hc with hc | hc
    · rcases List.mem_cons.mp hc with rfl | hc
      · exact digit_not_space hd
      · exact digit_not_space (hds c hc)
    · rcases List.mem_cons.mp hc with rfl | hc
      · rfl
      · rcases List.mem_cons.mp hc with rfl | hc
        · rfl
        · cases hc
  unfold safeIntToken
  rw [hsd, pyStrip_eq_self hall]
  rw [if_neg (by simp)]
  rw [pyFloatParse_dotzero d ds hd hds]
  have ht : truncScaled (digitsToNat (d :: ds) * 10) 1 0 = digitsToNat (d :: ds) := by
    unfold truncScaled
    rw [if_neg (by norm_num)]
    norm_num
  simp [ht]

theorem specShape_inv {l : List Char} {n : Nat} (h : specShape l = some n) :
    ∃ d ds rest, l = (d :: ds) ++ rest ∧ isDigitCh d = true ∧
      (∀ c ∈ ds, isDigitCh c = true) ∧ (rest = [] ∨ rest = ['.', '0']) ∧
      n = digitsToNat (d :: ds) := by
  unfold specShape at h
  by_cases h1 : l.takeWhile isDigitCh = []
  · simp [h1] at h
  · obtain ⟨d, ds, hds⟩ := List.exists_cons_of_ne_nil h1
    have hdig : ∀ c ∈ l.takeWhile isDigitCh, isDigitCh c = true := by
      intro c hc
      exact List.mem_takeWhile_imp hc
    by_cases h2 : l.dropWhile isDigitCh = []
    · refine ⟨d, ds, [], ?_, ?_, ?_, Or.inl rfl, ?_⟩
      · have hsplit : l = l.takeWhile isDigitCh ++ l.dropWhile isDigitCh :=
          (List.takeWhile_append_dropWhile ..).symm
        rw [hds, h2] at hsplit
        exact hsplit
      · exact hdig d (hds ▸ List.mem_cons_self d ds)
      · intro c hc
        exact hdig c (hds ▸ List.mem_cons.mpr (Or.inr hc))
      · rw [if_neg h1, if_pos h2] at h
        injection h with h
        rw [← h, hds]
    · by_cases h3 : l.dropWhile isDigitCh = ['.', '0']
      · refine ⟨d, ds, ['.', '0'], ?_, ?_, ?_, Or.inr rfl, ?_⟩
        · have hsplit : l = l.takeWhile isDigitCh ++ l.dropWhile isDigitCh :=
            (List.takeWhile_append_dropWhile ..).symm
          rw [hds, h3] at hsplit
          exact hsplit
        · exact hdig d (hds ▸ List.mem_cons_self d ds)
        · intro c hc
          exact hdig c (hds ▸ List.mem_cons.mpr (Or.inr hc))
        · rw [if_neg h1, if_neg h2, if_pos h3] at h
          injection h with h
          rw [← h, hds]
      · rw [if_neg h1, if_neg h2, if_neg h3] at h
        cases h

theorem specShape_no_pipe {l : List Char} {n : Nat} (h : specShape l = some n) :
    '|' ∉ l := by
  obtain ⟨d, ds, rest, rfl, hd, hds, hrest, _⟩ := specShape_inv h
  intro hc
  rcases List.mem_append.mp hc with hc | hc
  · rcases List.mem_cons.mp hc with he | hc
    · exact absurd hd (by rw [← he]; decide)
    · exact absurd (hds _ hc) (by decide)
  · rcases hrest with rfl | rfl
    · cases hc
    · rcases List.mem_cons.mp hc with he | hc
      · cases he
      · rcases List.mem_cons.mp hc with he | hc
        · cases he
        · cases hc

theorem specShape_token {t : String} {n : Nat} (h : specShape t.data = some n) :
    safeIntToken t = some ((n : Nat) : Int) := by
  obtain ⟨d, ds, rest, hl, hd, hds, hrest, rfl⟩ := specShape_inv h
  rcases hrest with rfl | rfl
  · rw [List.append_nil] at hl
    exact safeIntToken_of_digits hl hd hds
  · exact safeIntToken_of_dotzero hl hd hds

theorem splitPipe_ne_nil (l : List Char) : splitPipe l ≠ [] := by
  induction l with
  | nil => simp [splitPipe]
  | cons c t ih =>
    show splitStep c (splitPipe t) ≠ []
    unfold splitStep
    split <;> simp

theorem foldr_splitStep_nopipe {a : List Char} (h : '|' ∉ a)
    (acc : List (List Char)) (hacc : acc ≠ []) :
    a.foldr splitStep acc = (a ++ acc.headI) :: acc.tail := by
  induction a with
  | nil =>
    cases acc with
    | nil => exact absurd rfl hacc
    | cons x xs => simp
  | cons c a ih =>
    have hc : c ≠ '|' := fun he => h (he ▸ List.mem_cons_self c a)
    have ha : '|' ∉ a := fun hm => h (List.mem_cons.mpr (Or.inr hm))
    simp only [List.foldr_cons, ih ha]
    simp [splitStep, hc]

theorem splitPipe_nopipe {l : List Char} (h : '|' ∉ l) : splitPipe l = [l] := by
  unfold splitPipe
  rw [foldr_splitStep_nopipe h [[]] (by simp)]
  simp

theorem splitPipe_cons (c : Char) (l : List Char) :
    splitPipe (c :: l) = splitStep c (splitPipe l) := rfl

theorem splitPipe_append (a b : List Char) :
    splitPipe (a ++ b) = a.foldr splitStep (splitPipe b) := by
  unfold splitPipe
  rw [List.foldr_append]

theorem splitPipe_three {e s t : List Char} (he : '|' ∉ e) (hs : '|' ∉ s)
    (ht : '|' ∉ t) :
    splitPipe (e ++ '|' :: (s ++ '|' :: t)) = [e, s, t] := by
  have hmid : splitPipe (s ++ '|' :: t) = [s, t] := by
    rw [splitPipe_append, splitPipe_cons, splitPipe_nopipe ht,
      show splitStep '|' [t] = [[], t] from by simp [splitStep],
      foldr_splitStep_nopipe hs [[], t] (by simp)]
    simp
  rw [splitPipe_append, splitPipe_cons, hmid,
    show splitStep '|' [s, t] = [[], s, t] from by simp [splitStep],
    foldr_splitStep_nopipe he [[], s, t] (by simp)]
  simp

theorem mk_data (s : String) : String.mk s.data = s := rfl

theorem str_data_append (a b : String) : (a ++ b).data = a.data ++ b.data := rfl

theorem parseSymbolE_spec_token {e s t : String} {n : Nat}
    (he : '|' ∉ e.data) (hs : '|' ∉ s.data) (h : specShape t.data = some n) :
    parseSymbolE (e ++ "|" ++ s ++ "|" ++ t) = .ok (e, s, ((n : Nat) : Int)) := by
  have ht := specShape_no_pipe h
  have hdata : (e ++ "|" ++ s ++ "|" ++ t).data
      = e.data ++ '|' :: (s.data ++ '|' :: t.data) := by
    simp only [str_data_append]
    simp [List.append_assoc]
  unfold parseSymbolE
  rw [hdata, splitPipe_three he hs ht]
  simp only []
  rw [show safeIntToken (String.mk t.data) = some ((n : Nat) : Int) from by
    rw [mk_data]; exact specShape_token h]

/-! ## Helper lemmas: fanout dispatch -/

theorem dispatchMap_preserved (sessions : List (String × String))
    (broker : OrderPayload → Except String Resp) (sh : SharedFields)
    {k : String} {ts : List Target} (h : ∀ t ∈ ts, targetKey t ≠ k)
    (init : List (String × Resp)) :
    alookup k (dispatchMap sessions broker sh init ts) = alookup k init := by
  induction ts generalizing init with
  | nil => rfl
  | cons t ts ih =>
    show alookup k (dispatchMap sessions broker sh
      (dictInsert (targetKey t) (targetOutcome sessions broker sh t) init) ts) =
      alookup k init
    rw [ih (fun u hu => h u (List.mem_cons.mpr (Or.inr hu)))]
    exact alookup_dictInsert_ne _ _ (fun he => h t (List.mem_cons_self t ts) he.symm)

theorem dispatchMap_lookup (sessions : List (String × String))
    (broker : OrderPayload → Except String Resp) (sh : SharedFields)
    {ts : List Target} (hnd : (ts.map targetKey).Nodup)
    (init : List (String × Resp)) {t : Target} (ht : t ∈ ts) :
    alookup (targetKey t) (dispatchMap sessions broker sh init ts) =
      some (targetOutcome sessions broker sh t) := by
  induction ts generalizing init with
  | nil => cases ht
  | cons t0 ts ih =>
    rcases List.mem_cons.mp ht with rfl | ht
    · show alookup (targetKey t) (dispatchMap sessions broker sh
        (dictInsert (targetKey t) (targetOutcome sessions broker sh t) init) ts) = _
      have hnd' : (targetKey t :: ts.map targetKey).Nodup := by
        simpa using hnd
      have hni : targetKey t ∉ ts.map targetKey := (List.nodup_cons.mp hnd').1
      rw [dispatchMap_preserved sessions broker sh
        (fun u hu he => hni (by rw [← he]; exact List.mem_map_of_mem targetKey hu)) _]
      exact alookup_dictInsert_self _ _ _
    · have hnd' : (targetKey t0 :: ts.map targetKey).Nodup := by
        simpa using hnd
      exact ih (List.nodup_cons.mp hnd').2 _ ht

theorem dispatchCallList_mem {sessions : List (String × String)}
    {sh : SharedFields} {ts : List Target} {c : String × OrderPayload}
    (hc : c ∈ dispatchCallList sessions sh ts) :
    ∃ t ∈ ts, sessionFor sessions t.2.1 ≠ none ∧
      c = (targetKey t, mkOrderPayload sh t) := by
  obtain ⟨l, hl, hcl⟩ := List.mem_flatten.mp hc
  obtain ⟨t, ht, rfl⟩ := List.mem_map.mp hl
  refine ⟨t, ht, ?_⟩
  unfold targetCalls at hcl
  cases hs : sessionFor sessions t.2.1 with
  | none => rw [hs] at hcl; cases hcl
  | some v =>
    rw [hs] at hcl
    rcases List.mem_singleton.mp hcl with rfl
    exact ⟨by simp [hs], rfl⟩

theorem dispatchCallList_mem_of {sessions : List (String × String)}
    {sh : SharedFields} {ts : List Target} {t : Target} (ht : t ∈ ts)
    (hs : sessionFor sessions t.2.1 ≠ none) :
    (targetKey t, mkOrderPayload sh t) ∈ dispatchCallList sessions sh ts := by
  refine List.mem_flatten.mpr ⟨targetCalls sessions sh t,
    List.mem_map_of_mem _ ht, ?_⟩
  unfold targetCalls
  cases hsf : sessionFor sessions t.2.1 with
  | none => exact absurd hsf hs
  | some v => simp

/-! ## Claim C1 -/

/-- Claim C1: per-target failure isolation of the place-order fanout.
For a validated request, the aggregate `order_responses` map holds, under
every resolved target's key, exactly that target's own outcome: a local
`Session not found` error (with no broker call made under that key) when
the account has no live session, the broker's exception message as an
error-shaped outcome when the broker call raises, and the broker
response otherwise; every broker call made belongs to some
session-holding target.  Neither kind of failure removes, replaces or
suppresses a sibling target's entry.  The join-all barrier is modelled
by the fold running every target to completion; the key-distinctness
hypothesis reflects the spec's acknowledged key-collision edge case. -/
theorem placeOrder_per_target_isolation
    (sessions : List (String × String))
    (broker : OrderPayload → Except String Resp)
    (groupLoad : String → Option GroupDoc) (docs : String → CapDoc)
    (caps0 : List (String × ℚ)) (req : PlaceOrderReq)
    (exch stock : String) (tok : Int)
    (hsym : parseSymbolE req.symbol = .ok (exch, stock, tok))
    (hnd : (((resolveTargets req groupLoad docs caps0).2.1).map targetKey).Nodup)
    (resps : List (String × Resp)) (calls : List (String × OrderPayload))
    (capsOut : List (String × ℚ))
    (hres : placeOrder sessions broker groupLoad docs caps0 req =
      .ok (resps, calls, capsOut)) :
    (∀ t ∈ (resolveTargets req groupLoad docs caps0).2.1,
      alookup (targetKey t) resps =
        some (targetOutcome sessions broker (shOf req exch tok) t) ∧
      (sessionFor sessions t.2.1 = none →
        alookup (targetKey t) resps =
          some { status := "ERROR", message := "Session not found" } ∧
        ∀ c ∈ calls, c.1 ≠ targetKey t) ∧
      (∀ em, broker (mkOrderPayload (shOf req exch tok) t) = .error em →
        sessionFor sessions t.2.1 ≠ none →
        alookup (targetKey t) resps =
          some { status := "ERROR", message := em })) ∧
    (∀ c ∈ calls, ∃ t ∈ (resolveTargets req groupLoad docs caps0).2.1,
      sessionFor sessions t.2.1 ≠ none ∧
      c = (targetKey t, mkOrderPayload (shOf req exch tok) t)) := by
  have hro : resps = dispatchMap sessions broker (shOf req exch tok)
        (resolveTargets req groupLoad docs caps0).1
        (resolveTargets req groupLoad docs caps0).2.1 ∧
      calls = dispatchCallList sessions (shOf req exch tok)
        (resolveTargets req groupLoad docs caps0).2.1 := by
    unfold placeOrder at hres
    rw [hsym] at hres
    simp only [dispatchAll] at hres
    injection hres with hres
    exact ⟨(congrArg Prod.fst hres).symm,
      (congrArg (fun p => p.2.1) hres).symm⟩
  obtain ⟨hrr, hcc⟩ := hro
  subst hrr hcc
  constructor
  · intro t ht
    refine ⟨dispatchMap_lookup sessions broker _ hnd _ ht, ?_, ?_⟩
    · intro hsess
      refine ⟨?_, ?_⟩
      · rw [dispatchMap_lookup sessions broker _ hnd _ ht]
        simp [targetOutcome, hsess]
      · intro c hc he
        obtain ⟨u, hu, hus, rfl⟩ := dispatchCallList_mem hc
        have hinj := List.inj_on_of_nodup_map hnd hu ht he
        subst hinj
        exact hus hsess
    · intro em hb hsess
      rw [dispatchMap_lookup sessions broker _ hnd _ ht]
      cases hsf : sessionFor sessions t.2.1 with
      | none => exact absurd hsf hsess
      | some v => simp [targetOutcome, hsf, brokerOutcome, hb]
  · intro c hc
    exact dispatchCallList_mem hc

theorem placeOrder_per_target_isolation_witness :
    alookup "C2" c1resps =
      some { status := "ERROR", message := "Session not found" } ∧
    alookup "C1" c1resps = some { status := "SUCCESS", message := "ok" } ∧
    alookup "C3" c1resps = some { status := "ERROR", message := "boom" } := by
  have hres : placeOrder c1sessions c1broker noGroups zeroDocs [] c1req =
      Except.ok (c1resps, c1calls, []) := by
    unfold placeOrder
    rw [show parseSymbolE c1req.symbol =
      Except.ok ("NSE", "RELIANCE", 2885) from rfl]
    exact congrArg Except.ok (by decide)
  have h := placeOrder_per_target_isolation c1sessions c1broker noGroups
    zeroDocs [] c1req "NSE" "RELIANCE" 2885 (by rfl) (by decide) c1resps
    c1calls [] hres
  refine ⟨?_, ?_, ?_⟩
  · exact ((h.1 ((none : Option String), "C2", 5) (by decide)).2.1 (by rfl)).1
  · exact (h.1 ((none : Option String), "C1", 5) (by decide)).1
  · exact (h.1 ((none : Option String), "C3", 5) (by decide)).2.2 "boom"
      (by rfl) (by decide)

/-! ## Helper lemmas: fractional decimal tokens -/

theorem digitVal_le (c : Char) : digitVal c ≤ 9 := by
  rw [digitVal.eq_def]
  split <;> omega

theorem digitsToNat_acc (l : List Char) (acc : Nat) :
    l.foldl (fun a c => a * 10 + digitVal c) acc =
      acc * 10 ^ l.length + digitsToNat l := by
  induction l generalizing acc with
  | nil => simp [digitsToNat]
  | cons c t ih =>
    simp only [List.foldl_cons]
    rw [ih, show digitsToNat (c :: t) = digitVal c * 10 ^ t.length +
        digitsToNat t from by
      unfold digitsToNat
      simp only [List.foldl_cons]
      rw [ih]
      ring_nf
      rfl]
    rw [List.length_cons, pow_succ]
    ring

theorem digitsToNat_lt (l : List Char) : digitsToNat l < 10 ^ l.length := by
  induction l with
  | nil => simp [digitsToNat]
  | cons c t ih =>
    have hc := digitVal_le c
    have hval : digitsToNat (c :: t) =
        digitVal c * 10 ^ t.length + digitsToNat t := by
      unfold digitsToNat
      simp only [List.foldl_cons]
      rw [digitsToNat_acc]
      ring_nf
      rfl
    rw [hval, List.length_cons, pow_succ]
    calc digitVal c * 10 ^ t.length + digitsToNat t
        < digitVal c * 10 ^ t.length + 10 ^ t.length := by omega
      _ = (digitVal c + 1) * 10 ^ t.length := by ring
      _ ≤ 10 * 10 ^ t.length := Nat.mul_le_mul_right _ (by omega)
      _ = 10 ^ t.length * 10 := by ring

theorem parseMantissa_fraction (d : Char) (as : List Char) (d2 : Char)
    (bs : List Char) (hd : isDigitCh d = true)
    (has : ∀ c ∈ as, isDigitCh c = true) (hd2 : isDigitCh d2 = true)
    (hbs : ∀ c ∈ bs, isDigitCh c = true) :
    parseMantissa ((d :: as) ++ '.' :: (d2 :: bs)) =
      some (digitsToNat (d :: as) * 10 ^ (d2 :: bs).length +
        digitsToNat (d2 :: bs), (d2 :: bs).length, []) := by
  have h := parseDigitGroup_digits d as hd has ('.' :: (d2 :: bs))
    (Or.inr ⟨'.', d2 :: bs, rfl, by decide, by decide⟩)
  have h2 := parseDigitGroup_digits d2 bs hd2 hbs [] (Or.inl rfl)
  rw [List.append_nil] at h2
  rw [parseMantissa.eq_def, h]
  simp [h2]

theorem safeIntToken_of_fraction {s : String} (d : Char) (as : List Char)
    (d2 : Char) (bs : List Char)
    (hsd : s.data = (d :: as) ++ '.' :: (d2 :: bs))
    (hd : isDigitCh d = true) (has : ∀ c ∈ as, isDigitCh c = true)
    (hd2 : isDigitCh d2 = true) (hbs : ∀ c ∈ bs, isDigitCh c = true) :
    safeIntToken s = some ((digitsToNat (d :: as) : Nat) : Int) := by
  have hall : ∀ c ∈ (d :: as) ++ '.' :: (d2 :: bs), pyIsSpace c = false := by
    intro c hc
    rcases List.mem_append.mp hc with hc | hc
    · rcases List.mem_cons.mp hc with rfl | hc
      · exact digit_not_space hd
      · exact digit_not_space (has c hc)
    · rcases List.mem_cons.mp hc with rfl | hc
      · rfl
      · rcases List.mem_cons.mp hc with rfl | hc
        · exact digit_not_space hd2
        · exact digit_not_space (hbs c hc)
  unfold safeIntToken
  rw [hsd, pyStrip_eq_self hall, if_neg (by simp)]
  have he : (d :: as) ++ '.' :: (d2 :: bs) = d :: (as ++ '.' :: (d2 :: bs)) :=
    rfl
  rw [he, pyFloatParse_digit_head hd, pyFloatStep_digit_head hd, ← he,
    parseMantissa_fraction d as d2 bs hd has hd2 hbs]
  have htr : truncScaled
      (digitsToNat (d :: as) * 10 ^ (d2 :: bs).length +
        digitsToNat (d2 :: bs)) (d2 :: bs).length 0 =
      digitsToNat (d :: as) := by
    unfold truncScaled
    rw [if_neg (by
      rw [List.length_cons]
      omega)]
    rw [show ((((d2 :: bs).length : Int) - 0).toNat) = (d2 :: bs).length
      from by simp]
    rw [Nat.mul_comm (digitsToNat (d :: as)) (10 ^ (d2 :: bs).length),
      Nat.mul_add_div (Nat.pos_pow_of_pos _ (by omega)),
      Nat.div_eq_of_lt (digitsToNat_lt (d2 :: bs))]
    omega
  simp only [List.length_cons] at htr
  simp [htr]

theorem parseSymbolE_of_token {e s t : String} {k : Int}
    (he : '|' ∉ e.data) (hs : '|' ∉ s.data) (ht : '|' ∉ t.data)
    (htok : safeIntToken t = some k) :
    parseSymbolE (e ++ "|" ++ s ++ "|" ++ t) = .ok (e, s, k) := by
  have hdata : (e ++ "|" ++ s ++ "|" ++ t).data
      = e.data ++ '|' :: (s.data ++ '|' :: t.data) := by
    simp only [str_data_append]
    simp [List.append_assoc]
  unfold parseSymbolE
  rw [hdata, splitPipe_three he hs ht]
  simp only []
  rw [show safeIntToken (String.mk t.data) = some k from by
    rw [mk_data]; exact htok]

/-! ## Claim C2 -/

/-- Claim C2 counterexample: the token `3.7` is not of the spec's
integer-with-optional-`.0` shape, yet the symbol `NSE|RELIANCE|3.7` is
accepted by the code's validation (`int(float("3.7")) == 3`) and the
request is NOT rejected: the fanout runs, the target is dispatched, and
a broker call is made with token 3 — refuting both "accepted exactly
when T is an integer, optionally with a trailing '.0'" and "for every
other shape the entire request is rejected ... and no broker call is
made". -/
theorem parseSymbolE_accepts_fractional_token :
    parseSymbolE "NSE|RELIANCE|3.7" = .ok ("NSE", "RELIANCE", 3) ∧
    specTokenOk "3.7" = false ∧
    placeOrder c2fsessions okBroker noGroups zeroDocs [] c2freq =
      .ok ([("A", { status := "SUCCESS", message := "ok" })],
        [("A", c2fpayload)], []) := by
  refine ⟨rfl, rfl, ?_⟩
  unfold placeOrder
  rw [show parseSymbolE c2freq.symbol =
    Except.ok ("NSE", "RELIANCE", 3) from rfl]
  exact congrArg Except.ok (by decide)

/-- Claim C2 as amended: the symbol is accepted exactly when it splits
into three pipe-delimited fields `E|S|T` whose token `T` parses under
Python's float-literal grammar to a finite value; the parsed triple is
`(E, S, int(float(T)))`, truncated toward zero.  First clause: every
token of the spec's shape (digits, optionally with trailing `.0`)
yields `(E, S, int(T))` as specified.  Second clause: strictly more is
accepted — for ALL digit strings `A` and `B`, the fractional token
`A.B` is accepted with value `int(A)` (e.g. `3.7` as 3) rather than
rejected.  Third clause: when the token does not parse (or the split is
not three fields), the entire request is rejected with that validation
error before target resolution, uniformly in the session registry, the
broker, the group store and the capital state — so no target is
resolved and no broker call is made.  (Exact-arithmetic model: float
overflow beyond double range and IEEE rounding above `2^53` are outside
it.) -/
theorem placeOrder_symbol_validation :
    (∀ (e s t : String) (n : Nat), '|' ∉ e.data → '|' ∉ s.data →
      specShape t.data = some n →
      parseSymbolE (e ++ "|" ++ s ++ "|" ++ t) = .ok (e, s, (n : Int))) ∧
    (∀ (e s : String) (d : Char) (as : List Char) (d2 : Char)
      (bs : List Char), '|' ∉ e.data → '|' ∉ s.data →
      isDigitCh d = true → (∀ c ∈ as, isDigitCh c = true) →
      isDigitCh d2 = true → (∀ c ∈ bs, isDigitCh c = true) →
      parseSymbolE (e ++ "|" ++ s ++ "|" ++
          String.mk ((d :: as) ++ '.' :: (d2 :: bs))) =
        .ok (e, s, (digitsToNat (d :: as) : Int))) ∧
    (∀ (req : PlaceOrderReq) (m : String),
      parseSymbolE req.symbol = .error m →
      ∀ (sessions : List (String × String))
        (broker : OrderPayload → Except String Resp)
        (groupLoad : String → Option GroupDoc) (docs : String → CapDoc)
        (caps0 : List (String × ℚ)),
        placeOrder sessions broker groupLoad docs caps0 req = .error m) := by
  refine ⟨?_, ?_, ?_⟩
  · intro e s t n he hs h
    exact parseSymbolE_spec_token he hs h
  · intro e s d as d2 bs he hs hd has hd2 hbs
    have ht : '|' ∉ (String.mk ((d :: as) ++ '.' :: (d2 :: bs))).data := by
      intro hc
      rcases List.mem_append.mp hc with hc | hc
      · rcases List.mem_cons.mp hc with rfl | hc
        · exact absurd hd (by decide)
        · exact absurd (has _ hc) (by decide)
      · rcases List.mem_cons.mp hc with he2 | hc
        · cases he2
        · rcases List.mem_cons.mp hc with rfl | hc
          · exact absurd hd2 (by decide)
          · exact absurd (hbs _ hc) (by decide)
    exact parseSymbolE_of_token he hs ht
      (safeIntToken_of_fraction d as d2 bs rfl hd has hd2 hbs)
  · intro req m hm sessions broker groupLoad docs caps0
    unfold placeOrder
    rw [hm]

theorem placeOrder_symbol_validation_witness :
    parseSymbolE ("NSE" ++ "|" ++ "RELIANCE" ++ "|" ++ "2885.0") =
      .ok ("NSE", "RELIANCE", (2885 : Int)) ∧
    parseSymbolE ("NSE" ++ "|" ++ "TCS" ++ "|" ++
        String.mk (('3' :: []) ++ '.' :: ('7' :: []))) =
      .ok ("NSE", "TCS", (3 : Int)) ∧
    placeOrder c1sessions c1broker noGroups zeroDocs [] c2badreq =
      .error "symbol must be 'EXCHANGE|SYMBOL|TOKEN'" := by
  refine ⟨?_, ?_, ?_⟩
  · exact placeOrder_symbol_validation.1 "NSE" "RELIANCE" "2885.0" 2885
      (by decide) (by decide) (by rfl)
  · exact placeOrder_symbol_validation.2.1 "NSE" "TCS" '3' [] '7' []
      (by decide) (by decide) (by decide) (by simp) (by decide) (by simp)
  · exact placeOrder_symbol_validation.2.2 c2badreq
      "symbol must be 'EXCHANGE|SYMBOL|TOKEN'" (by rfl) c1sessions c1broker
      noGroups zeroDocs []

/-! ## Claim C3 -/

/-- Claim C3: `auto_qty` returns
`max(floor(capital * 0.15 / price), 1)` for every non-zero price, is
always at least 1, never raises (the embedding is total; the
`ZeroDivisionError` branch for `price = 0` degrades to 1), and on the
spec's concrete cases — through the capital cache and Account Store
path — gives 15, 1 and 1.  Python float arithmetic is modelled by
exact rationals. -/
theorem auto_qty_formula :
    (∀ capital price : ℚ, 1 ≤ autoQtyCore capital price) ∧
    (∀ capital price : ℚ, price ≠ 0 →
      autoQtyCore capital price = max ⌊capital * (15 / 100) / price⌋ 1) ∧
    (autoQty richDocs [] "A" 100).1 = 15 ∧
    (autoQty zeroDocs [] "A" 100).1 = 1 ∧
    (autoQty richDocs [] "A" 0).1 = 1 := by
  refine ⟨?_, ?_, ?_, ?_, ?_⟩
  · intro capital price
    unfold autoQtyCore
    split
    · exact le_refl 1
    · exact le_max_right _ 1
  · intro capital price hp
    unfold autoQtyCore
    rw [if_neg hp, max_comm]
  · show autoQtyCore 10000 100 = 15
    unfold autoQtyCore
    norm_num
  · show autoQtyCore 0 100 = 1
    unfold autoQtyCore
    norm_num
  · rfl

theorem auto_qty_formula_witness :
    autoQtyCore 10000 100 = max ⌊(10000 : ℚ) * (15 / 100) / 100⌋ 1 :=
  auto_qty_formula.2.1 10000 100 (by norm_num)

/-! ## Claim C4 -/

theorem alookup_processRows_isSome {uid nm : String} {rows : List PosRow}
    {m : List (MetaKey × PosMetaV)} {k : MetaKey} :
    (alookup k (processRows uid nm rows m)).isSome = true ↔
      (alookup k m).isSome = true ∨
        ∃ p ∈ rows, posNetQty p ≠ 0 ∧ k = (uid, nm, p.symbol) := by
  induction rows generalizing m with
  | nil => simp [processRows]
  | cons p rows ih =>
    show (alookup k (processRows uid nm rows
      (if posNetQty p ≠ 0 then dictInsert (uid, nm, p.symbol)
        { exchange := p.exchange, symboltoken := p.symboltoken,
          producttype := p.productname } m
       else m))).isSome = true ↔ _
    by_cases hq : posNetQty p ≠ 0
    · rw [if_pos hq]
      by_cases hk : k = (uid, nm, p.symbol)
      · subst hk
        rw [ih]
        simp [alookup_dictInsert_self, hq]
      · rw [ih, alookup_dictInsert_ne _ _ hk]
        constructor
        · rintro (h | ⟨q, hq2, hq3, hq4⟩)
          · exact Or.inl h
          · exact Or.inr ⟨q, List.mem_cons.mpr (Or.inr hq2), hq3, hq4⟩
        · rintro (h | ⟨q, hq2, hq3, hq4⟩)
          · exact Or.inl h
          · rcases List.mem_cons.mp hq2 with rfl | hq2
            · exact absurd hq4 hk
            · exact Or.inr ⟨q, hq2, hq3, hq4⟩
    · rw [if_neg hq, ih]
      push_neg at hq
      constructor
      · rintro (h | ⟨q, hq2, hq3, hq4⟩)
        · exact Or.inl h
        · exact Or.inr ⟨q, List.mem_cons.mpr (Or.inr hq2), hq3, hq4⟩
      · rintro (h | ⟨q, hq2, hq3, hq4⟩)
        · exact Or.inl h
        · rcases List.mem_cons.mp hq2 with rfl | hq2
          · exact absurd hq hq3
          · exact Or.inr ⟨q, hq2, hq3, hq4⟩

theorem alookup_processRows_other {uid nm : String} {rows : List PosRow}
    {m : List (MetaKey × PosMetaV)} {k : MetaKey} (h : k.1 ≠ uid) :
    alookup k (processRows uid nm rows m) = alookup k m := by
  induction rows generalizing m with
  | nil => rfl
  | cons p rows ih =>
    show alookup k (processRows uid nm rows _) = _
    rw [ih]
    dsimp only
    split
    · exact alookup_dictInsert_ne _ _ (fun he => h (by rw [he]))
    · rfl

theorem alookup_filter_user {meta : List (MetaKey × PosMetaV)} {uid : String}
    {k : MetaKey} :
    alookup k (meta.filter (fun kv => decide (kv.1.1 ≠ uid))) =
      if k.1 = uid then none else alookup k meta := by
  induction meta with
  | nil => simp [alookup]
  | cons kv rest ih =>
    by_cases hkv : kv.1.1 ≠ uid
    · rw [List.filter_cons_of_pos (by simpa using hkv)]
      by_cases hk : kv.1 = k
      · have : ¬k.1 = uid := by rw [← hk]; exact hkv
        simp [alookup, hk, this]
      · show (if kv.1 = k then some kv.2 else
          alookup k (rest.filter (fun kv => decide (kv.1.1 ≠ uid)))) = _
        rw [if_neg hk, ih]
        by_cases hu : k.1 = uid
        · simp [hu]
        · simp [hu, alookup, hk]
    · rw [List.filter_cons_of_neg (by simpa using hkv)]
      rw [ih]
      push_neg at hkv
      by_cases hu : k.1 = uid
      · simp [hu]
      · have hk : kv.1 ≠ k := by
          intro he
          rw [he] at hkv
          exact hu hkv
        simp [hu, alookup, hk]

theorem alookup_fetchFold_isSome {uid : String}
    {fetches : List (String × Option (List PosRow))}
    {m : List (MetaKey × PosMetaV)} {k : MetaKey} :
    (alookup k (fetches.foldl
      (fun m f => match f.2 with
        | none => m
        | some rows => processRows uid f.1 rows m) m)).isSome = true ↔
      (alookup k m).isSome = true ∨
        ∃ rows nm, (nm, some rows) ∈ fetches ∧
          ∃ p ∈ rows, posNetQty p ≠ 0 ∧ k = (uid, nm, p.symbol) := by
  induction fetches generalizing m with
  | nil => simp
  | cons f fetches ih =>
    rw [List.foldl_cons, ih]
    cases hf : f.2 with
    | none =>
      constructor
      · rintro (h | ⟨rows, nm, hmem, hex⟩)
        · exact Or.inl h
        · exact Or.inr ⟨rows, nm, List.mem_cons.mpr (Or.inr hmem), hex⟩
      · rintro (h | ⟨rows, nm, hmem, hex⟩)
        · exact Or.inl h
        · rcases List.mem_cons.mp hmem with he | hmem
          · exfalso
            have h2 := (Prod.ext_iff.mp he).2
            rw [hf] at h2
            cases h2
          · exact Or.inr ⟨rows, nm, hmem, hex⟩
    | some rows0 =>
      rw [alookup_processRows_isSome]
      constructor
      · rintro ((h | ⟨p, hp, hq, hk⟩) | ⟨rows, nm, hmem, hex⟩)
        · exact Or.inl h
        · refine Or.inr ⟨rows0, f.1, ?_, p, hp, hq, hk⟩
          refine List.mem_cons.mpr (Or.inl ?_)
          rw [Prod.ext_iff]
          exact ⟨rfl, hf.symm⟩
        · exact Or.inr ⟨rows, nm, List.mem_cons.mpr (Or.inr hmem), hex⟩
      · rintro (h | ⟨rows, nm, hmem, hex⟩)
        · exact Or.inl (Or.inl h)
        · rcases List.mem_cons.mp hmem with he | hmem
          · obtain ⟨he1, he2⟩ := Prod.ext_iff.mp he
            rw [hf] at he2
            injection he2 with he2
            obtain ⟨p, hp, hq, hk⟩ := hex
            exact Or.inl (Or.inr ⟨p, he2 ▸ hp, hq, by
              rw [hk, show nm = f.1 from he1]⟩)
          · exact Or.inr ⟨rows, nm, hmem, hex⟩

theorem alookup_fetchFold_other {uid : String}
    {fetches : List (String × Option (List PosRow))}
    {m : List (MetaKey × PosMetaV)} {k : MetaKey} (h : k.1 ≠ uid) :
    alookup k (fetches.foldl
      (fun m f => match f.2 with
        | none => m
        | some rows => processRows uid f.1 rows m) m) = alookup k m := by
  induction fetches generalizing m with
  | nil => rfl
  | cons f fetches ih =>
    rw [List.foldl_cons, ih]
    cases hf : f.2 with
    | none => rfl
    | some rows => exact alookup_processRows_other h

/-- Claim C4: after a positions fetch for user `uid` completes, a
Position Metadata Cache entry for `(uid, display_name, symbol)` exists
if and only if that fetch reported, for that display name, a position
row for that symbol with non-zero net quantity (buy minus sell); the
user's previous entries are cleared first (replaced, not merged), and
entries of every other user are carried over unchanged. -/
theorem getPositionsMeta_cache :
    (∀ (meta : List (MetaKey × PosMetaV)) (uid : String)
      (fetches : List (String × Option (List PosRow))) (nm sym : String),
      (alookup (uid, nm, sym) (getPositionsMeta meta uid fetches)).isSome =
          true ↔
        ∃ rows, (nm, some rows) ∈ fetches ∧
          ∃ p ∈ rows, p.symbol = sym ∧ posNetQty p ≠ 0) ∧
    (∀ (meta : List (MetaKey × PosMetaV)) (uid : String)
      (fetches : List (String × Option (List PosRow))) (k : MetaKey),
      k.1 ≠ uid →
      alookup k (getPositionsMeta meta uid fetches) = alookup k meta) := by
  constructor
  · intro meta uid fetches nm sym
    unfold getPositionsMeta
    rw [alookup_fetchFold_isSome]
    have hcl : alookup ((uid, nm, sym) : MetaKey)
        (meta.filter (fun kv => decide (kv.1.1 ≠ uid))) = none := by
      rw [alookup_filter_user]
      simp
    rw [hcl]
    simp only [Option.isSome_none, Bool.false_eq_true, false_or]
    constructor
    · rintro ⟨rows, nm2, hmem, p, hp, hq, hk⟩
      simp only [Prod.mk.injEq] at hk
      obtain ⟨-, h2, h3⟩ := hk
      subst h2
      exact ⟨rows, hmem, p, hp, h3.symm, hq⟩
    · rintro ⟨rows, hmem, p, hp, hsym, hq⟩
      exact ⟨rows, nm, hmem, p, hp, hq, by rw [hsym]⟩
  · intro meta uid fetches k h
    unfold getPositionsMeta
    rw [alookup_fetchFold_other h, alookup_filter_user, if_neg h]

theorem getPositionsMeta_cache_witness :
    alookup (("bob", "n1", "TCS") : MetaKey)
      (getPositionsMeta [(("bob", "n1", "TCS"), (⟨"NSE", "11536", "CNC"⟩ : PosMetaV))]
        "alice"
        [("n1", some [(⟨"INFY", "NSE", "1594", "CNC", 10, 4⟩ : PosRow)])]) =
      alookup (("bob", "n1", "TCS") : MetaKey)
        [(("bob", "n1", "TCS"), (⟨"NSE", "11536", "CNC"⟩ : PosMetaV))] :=
  getPositionsMeta_cache.2 _ "alice" _ _ (by decide)

/-! ## Claim C5 -/

/-- Claim C5 counterexample: deleting client `c1` removes its stored
document and both of its Session Registry entries, but the Capital
Cache entry `("c1", 5000)` is retained — `clients_delete` never touches
`client_capital_map`, refuting the claim that deletion removes the
user's Capital Cache entry for the account. -/
theorem clients_delete_keeps_capital :
    (clientsDelete c5st ["c1"]).caps = [("c1", 5000), ("c2", 100)] ∧
    alookup "c1" (clientsDelete c5st ["c1"]).caps = some 5000 ∧
    alookup (safe "c1") (clientsDelete c5st ["c1"]).store = none ∧
    (clientsDelete c5st ["c1"]).sessions = [("Other", "c2")] := by
  refine ⟨by decide, by decide, by decide, by decide⟩

/-- Claim C5 as amended: for every user state and non-empty account id,
deletion removes the stored client document, removes every Session
Registry entry whose account id matches (across all display names),
leaves every other stored document in place — and leaves the Capital
Cache exactly as it was (the stale capital persists until the next
login or restart). -/
theorem clients_delete_scope (st : UserState) (cid : String)
    (h : cid ≠ "") :
    alookup (safe cid) (clientsDeleteOne st cid).store = none ∧
    (∀ k, k ≠ safe cid →
      alookup k (clientsDeleteOne st cid).store = alookup k st.store) ∧
    (∀ nm c, (nm, c) ∈ (clientsDeleteOne st cid).sessions ↔
      (nm, c) ∈ st.sessions ∧ c ≠ cid) ∧
    (clientsDeleteOne st cid).caps = st.caps := by
  unfold clientsDeleteOne
  rw [if_neg h]
  refine ⟨?_, ?_, ?_, rfl⟩
  · cases hs : alookup (safe cid) st.store with
    | none => exact hs
    | some v => exact alookup_aerase_self _ _
  · intro k hk
    cases hs : alookup (safe cid) st.store with
    | none => rfl
    | some v => exact alookup_aerase_ne _ hk
  · intro nm c
    simp [List.mem_filter]

theorem clients_delete_scope_witness :
    alookup (safe "c1") (clientsDeleteOne c5st "c1").store = none ∧
    (clientsDeleteOne c5st "c1").caps = c5st.caps := by
  have h := clients_delete_scope c5st "c1" (by decide)
  exact ⟨h.1, h.2.2.2⟩

/-! ## Claim C6 -/

/-- Claim C6 counterexample: a differential-quantity request with no
override resolves its target's quantity to 0, and the engine dispatches
that zero-quantity order to the broker (`quantityinlot = 0` appears in
the broker-call list and the recorded outcome is the broker's response),
instead of rejecting the target locally without a broker call. -/
theorem placeOrder_dispatches_zero_qty :
    placeOrder c6sessions okBroker noGroups zeroDocs [] c6req =
      .ok ([("A", { status := "SUCCESS", message := "ok" })],
        [("A", c6payload)], []) ∧
    c6payload.quantityinlot = 0 := by
  constructor
  · unfold placeOrder
    rw [show parseSymbolE c6req.symbol =
      Except.ok ("NSE", "RELIANCE", 2885) from rfl]
    exact congrArg Except.ok (by decide)
  · rfl

/-- Claim C6 as amended: the engine performs no quantity validation at
dispatch: every resolved target that has a live session is dispatched to
the broker with its resolved quantity passed through unchanged — zero
and negative quantities included (for example the differential-quantity
policy defaulting to 0).  Per-target isolation is unaffected (each
dispatched unit still records only its own outcome). -/
theorem placeOrder_no_qty_validation
    (sessions : List (String × String))
    (broker : OrderPayload → Except String Resp)
    (groupLoad : String → Option GroupDoc) (docs : String → CapDoc)
    (caps0 : List (String × ℚ)) (req : PlaceOrderReq)
    (exch stock : String) (tok : Int)
    (hsym : parseSymbolE req.symbol = .ok (exch, stock, tok))
    (t : Target) (ht : t ∈ (resolveTargets req groupLoad docs caps0).2.1)
    (hsess : sessionFor sessions t.2.1 ≠ none)
    (resps : List (String × Resp)) (calls : List (String × OrderPayload))
    (capsOut : List (String × ℚ))
    (hres : placeOrder sessions broker groupLoad docs caps0 req =
      .ok (resps, calls, capsOut)) :
    (targetKey t, mkOrderPayload (shOf req exch tok) t) ∈ calls ∧
    (mkOrderPayload (shOf req exch tok) t).quantityinlot = t.2.2 := by
  have hcc : calls = dispatchCallList sessions (shOf req exch tok)
      (resolveTargets req groupLoad docs caps0).2.1 := by
    unfold placeOrder at hres
    rw [hsym] at hres
    simp only [dispatchAll] at hres
    injection hres with hres
    exact (congrArg (fun p => p.2.1) hres).symm
  subst hcc
  exact ⟨dispatchCallList_mem_of ht hsess, rfl⟩

theorem placeOrder_no_qty_validation_witness :
    (targetKey ((none : Option String), "A", (0 : Int)),
      mkOrderPayload (shOf c6req "NSE" 2885)
        ((none : Option String), "A", (0 : Int))) ∈ [("A", c6payload)] ∧
    (mkOrderPayload (shOf c6req "NSE" 2885)
      ((none : Option String), "A", (0 : Int))).quantityinlot = 0 := by
  have hres : placeOrder c6sessions okBroker noGroups zeroDocs [] c6req =
      Except.ok ([("A", { status := "SUCCESS", message := "ok" })],
        [("A", c6payload)], []) := by
    unfold placeOrder
    rw [show parseSymbolE c6req.symbol =
      Except.ok ("NSE", "RELIANCE", 2885) from rfl]
    exact congrArg Except.ok (by decide)
  exact placeOrder_no_qty_validation c6sessions okBroker noGroups zeroDocs []
    c6req "NSE" "RELIANCE" 2885 (by rfl) ((none : Option String), "A", 0)
    (by decide) (by decide) _ _ _ hres

/-! ## Claim C7 -/

/-- Claim C7 counterexample: when no minimum lot size is known for the
token, the code does not use the raw quantity as the lot count — the
lookup defaults the minimum lot to 1 and the `max(1, floor)` sizing
applies: quantity 0 dispatches 1 lot (the claim says 0), and quantity
7.5 dispatches 7 lots. -/
theorem close_lots_unknown_token :
    closeLots [] "ANY" 0 = 1 ∧ ¬ closeLots [] "ANY" 0 = 0 ∧
    closeLots [] "ANY" (15 / 2) = 7 := by
  have h1 : closeLots [] "ANY" 0 = 1 := by
    unfold closeLots
    norm_num [alookup]
  have h2 : closeLots [] "ANY" (15 / 2) = 7 := by
    unfold closeLots
    norm_num [alookup]
  exact ⟨h1, by rw [h1]; norm_num, h2⟩

/-- Claim C7 as amended: `close_one` dispatches, for an item with
metadata and session present and a parseable token,
`quantityinlot = closeLots`; a known positive minimum lot `m` gives
`max(1, floor(q / m))` as claimed; an unknown token defaults the
minimum lot to 1, giving `max(1, floor(q))` — equal to the raw quantity
only for whole `q ≥ 1`; a known non-positive minimum lot gives the raw
quantity truncated toward zero; and a failed min-lot table load (empty
map) defaults every token's minimum lot to 1. -/
theorem close_lots_formula :
    (∀ (minMap : List (String × Int)) (token : String) (q : ℚ) (m : Int),
      alookup token minMap = some m → 0 < m →
      closeLots minMap token q = max 1 ⌊q / (m : ℚ)⌋) ∧
    (∀ (minMap : List (String × Int)) (token : String) (q : ℚ),
      alookup token minMap = none → closeLots minMap token q = max 1 ⌊q⌋) ∧
    (∀ (token : String) (q : ℚ), closeLots [] token q = max 1 ⌊q⌋) ∧
    (∀ (minMap : List (String × Int)) (token : String) (q : ℚ) (m : Int),
      alookup token minMap = some m → ¬ 0 < m →
      closeLots minMap token q = ratTrunc q) ∧
    (∀ (n : Nat), 1 ≤ n → closeLots [] "ANY" (n : ℚ) = (n : Int)) ∧
    (∀ (meta : List (MetaKey × PosMetaV)) (sessions : List (String × String))
      (minMap : List (String × Int)) (uid : String) (pos : ClosePos)
      (mv : PosMetaV) (cid : String) (tk : Int),
      pos.name ≠ "" →
      alookup ((uid, pos.name, pos.symbol) : MetaKey) meta = some mv →
      alookup pos.name sessions = some cid →
      safeIntToken mv.symboltoken = some tk →
      closeOne meta sessions minMap uid pos = .dispatch
        { clientcode := cid, exchange := mv.exchange, symboltoken := tk
          buyorsell := strUpper pos.transactionType, ordertype := "MARKET"
          producttype := mv.producttype, orderduration := "DAY", price := 0
          triggerprice := 0
          quantityinlot := closeLots minMap mv.symboltoken pos.quantity
          disclosedquantity := 0, amoorder := "N", tag := "" }) := by
  have hone : ∀ (minMap : List (String × Int)) (token : String) (q : ℚ),
      alookup token minMap = none → closeLots minMap token q = max 1 ⌊q⌋ := by
    intro minMap token q h
    unfold closeLots
    rw [h]
    norm_num
  refine ⟨?_, hone, ?_, ?_, ?_, ?_⟩
  · intro minMap token q m hm hpos
    unfold closeLots
    rw [hm]
    simp [hpos]
  · intro token q
    exact hone [] token q rfl
  · intro minMap token q m hm hneg
    unfold closeLots
    rw [hm]
    simp [hneg]
  · intro n hn
    rw [hone [] "ANY" (n : ℚ) rfl, Int.floor_natCast]
    omega
  · intro meta sessions minMap uid pos mv cid tk hname hmeta hsess htk
    unfold closeOne
    rw [hmeta, if_pos hname, hsess]
    simp only [htk]

theorem close_lots_formula_witness :
    closeLots c7map "500325" 60 = max 1 ⌊(60 : ℚ) / ((25 : Int) : ℚ)⌋ ∧
    closeOne c7meta c7sessions c7map "u1" c7pos = .dispatch
      { clientcode := "CID1", exchange := "NSE", symboltoken := 500325
        buyorsell := "SELL", ordertype := "MARKET", producttype := "CNC"
        orderduration := "DAY", price := 0, triggerprice := 0
        quantityinlot := closeLots c7map "500325" 60
        disclosedquantity := 0, amoorder := "N", tag := "" } := by
  constructor
  · exact close_lots_formula.1 c7map "500325" 60 25 (by decide) (by decide)
  · exact close_lots_formula.2.2.2.2.2 c7meta c7sessions c7map "u1" c7pos
      ⟨"NSE", "500325", "CNC"⟩ "CID1" 500325 (by decide) (by decide)
      (by decide) (by rfl)

/-! ## Claim C8 -/

/-- Claim C8 counterexample: two distinct setup creations in the same
second — here under the two distinct names `My Setup` and `My_Setup`,
whose normalized forms coincide — generate the same `setup_id`, because
the timestamp suffix has only second resolution and the name is
sanitized: the combination is not injective across creations. -/
theorem setup_id_collision :
    ¬ (("My Setup" : String) = "My_Setup") ∧
    mkSetupId "My Setup" "20250101120000" =
      mkSetupId "My_Setup" "20250101120000" := by
  exact ⟨by decide, by decide⟩

/-- Claim C8 as amended: for a fixed base name, generated setup ids are
distinct exactly when the creation timestamps (second-resolution
`%Y%m%d%H%M%S` strings) differ; rapid recreation within the same second
under the same (or same-normalizing) name reproduces the same id. -/
theorem setup_id_timestamp_inj (base ts1 ts2 : String) :
    mkSetupId base ts1 = mkSetupId base ts2 ↔ ts1 = ts2 := by
  constructor
  · intro h
    have hd := congrArg String.data h
    simp only [mkSetupId, str_data_append] at hd
    have := List.append_cancel_left hd
    calc ts1 = String.mk ts1.data := rfl
      _ = String.mk ts2.data := by rw [this]
      _ = ts2 := rfl
  · intro h
    rw [h]

/-! ## Claim C9 -/

/-- Claim C9: login failure semantics.  Whenever the `try` block of
`login_client` fails — the TOTP derivation raises, the broker `login`
call raises, or the broker returns a non-`SUCCESS` response — the
routine still returns normally (the embedding is a total function: every
failure is caught inside `login_client`), the user's Session Registry is
left exactly as it was (no session installed for the display name), and
the client's stored document is rewritten with `session_active = false`
merged over the submitted fields.  The capital cache write happens
before the attempt and is unaffected by the outcome. -/
theorem login_failure_semantics (st : UserState) (doc : ClientDocL)
    (att : LoginAttempt) (hcid : pick2 doc.userid doc.clientId ≠ "")
    (hfail : loginSuccess att = false) :
    (loginClient st doc att).sessions = st.sessions ∧
    alookup (safe (pick2 doc.userid doc.clientId))
        (loginClient st doc att).store =
      some { doc := doc, sessionActive := false } := by
  unfold loginClient
  rw [if_neg hcid]
  simp only [hfail]
  exact ⟨rfl, by rw [← hfail]; exact alookup_dictInsert_self _ _ _⟩

theorem login_failure_semantics_witness :
    (loginClient c9st c9doc c9att).sessions = c9st.sessions ∧
    alookup (safe (pick2 c9doc.userid c9doc.clientId))
        (loginClient c9st c9doc c9att).store =
      some { doc := c9doc, sessionActive := false } :=
  login_failure_semantics c9st c9doc c9att (by decide) (by rfl)

/-! ## Claim C10 -/

theorem alookup_applyLogins_of_not_safe {u : String} (h : ∀ r, safe r ≠ u)
    (evs : List LoginEv) :
    alookup u (applyLogins evs) = none := by
  suffices haux : ∀ tbl : SessionTable, alookup u tbl = none →
      alookup u (evs.foldl applyLogin tbl) = none from haux [] rfl
  induction evs with
  | nil => intro tbl ht; exact ht
  | cons ev evs ih =>
    intro tbl ht
    rw [List.foldl_cons]
    apply ih
    unfold applyLogin
    split
    · rw [alookup_dictInsert_ne _ _ (fun he => h ev.rawUser he.symm)]
      exact ht
    · exact ht

/-- Claim C10: session-key consistency at the public interface.  Login
installs sessions under the sanitized user id while the trading
endpoints look sessions up under the raw stripped `X-User-Id` value.
First part: for a user id that is a fixed point of sanitization, a
session installed by a successful login is found by order dispatch for
that account — the dispatched unit reaches the broker instead of
reporting `Session not found`.  Second part: for a user id altered by
sanitization, no sequence of background logins ever populates the raw
key (sanitized ids are fixed points, so an altered id is never in
sanitization's range), hence every dispatch for that user reports
`Session not found` for every target. -/
theorem session_key_sanitization :
    (∀ (tbl : SessionTable) (u nm cid : String)
      (broker : OrderPayload → Except String Resp) (sh : SharedFields)
      (tag : Option String) (qty : Int),
      safe u = u →
      targetOutcome
        (sessionsForUser
          (applyLogin tbl (⟨u, nm, cid, true⟩ : LoginEv)) u)
        broker sh (tag, cid, qty) =
      brokerOutcome broker (mkOrderPayload sh (tag, cid, qty))) ∧
    (∀ (evs : List LoginEv) (u : String)
      (broker : OrderPayload → Except String Resp) (sh : SharedFields)
      (tag : Option String) (cid : String) (qty : Int),
      safe u ≠ u →
      targetOutcome (sessionsForUser (applyLogins evs) u) broker sh
        (tag, cid, qty) =
      { status := "ERROR", message := "Session not found" }) := by
  constructor
  · intro tbl u nm cid broker sh tag qty hu
    unfold applyLogin
    rw [hu]
    unfold sessionsForUser
    simp only [if_true]
    rw [alookup_dictInsert_self]
    unfold targetOutcome sessionFor
    simp [List.find?_cons, dictInsert]
  · intro evs u broker sh tag cid qty hu
    unfold sessionsForUser
    rw [alookup_applyLogins_of_not_safe (safe_not_in_range hu) evs]
    rfl

theorem session_key_sanitization_witness :
    targetOutcome
      (sessionsForUser
        (applyLogin [] (⟨"user1", "Acct", "C77", true⟩ : LoginEv)) "user1")
      okBroker c10sh ((none : Option String), "C77", 1) =
    brokerOutcome okBroker
      (mkOrderPayload c10sh ((none : Option String), "C77", 1)) ∧
    targetOutcome (sessionsForUser (applyLogins [c10ev]) "john.doe")
      okBroker c10sh ((none : Option String), "C77", 1) =
    { status := "ERROR", message := "Session not found" } := by
  constructor
  · exact session_key_sanitization.1 [] "user1" "Acct" "C77" okBroker c10sh
      (none : Option String) 1 (by decide)
  · exact session_key_sanitization.2 [c10ev] "john.doe" okBroker c10sh
      (none : Option String) "C77" 1 (by decide)
